import Mathlib

/-!
Verification development for the Kikyo keyboard-remapping engine
(crates/kikyo-core). The Rust sources are shallowly embedded:

* timestamps (std::time::Instant) are modelled as natural numbers
  (milliseconds on a monotonic clock); Duration subtraction saturates at
  zero exactly as Nat subtraction does;
* f64 overlap ratios are modelled as exact rationals;
* HashSet / HashMap are modelled as association-free lists with
  membership-based insert / remove; iteration order follows insertion
  order where the Rust code iterates a Vec, and is irrelevant for sets;
* OS-dependent collaborators (IME queries, MapVirtualKeyW) are passed in
  as an explicit oracle structure.
-/

namespace Kikyo

/-- Windows scancode + extended flag key identifier (types.rs ScKey). -/
structure ScKey where
  sc : Nat
  ext : Bool
deriving DecidableEq, Repr, Inhabited

def ScKey.new (sc : Nat) (ext : Bool) : ScKey := ⟨sc, ext⟩

/-- Key edge (chord_engine.rs KeyEdge). -/
inductive KeyEdge where
  | Down
  | Up
deriving DecidableEq, Repr, Inhabited

/-- Raw event fed to the chord engine (chord_engine.rs KeyEvent). -/
structure KeyEvent where
  key : ScKey
  edge : KeyEdge
  injected : Bool
  t : Nat
deriving DecidableEq, Repr

inductive LatchKind where
  | OneShot
  | Lock
deriving DecidableEq, Repr

/-- Output decision of the chord engine (chord_engine.rs Decision). -/
inductive Decision where
  | Passthrough (key : ScKey) (edge : KeyEdge)
  | KeyTap (key : ScKey)
  | Chord (keys : List ScKey)
  | LatchOn (kind : LatchKind)
  | LatchOff
deriving DecidableEq, Repr

inductive ChordStyle where
  | ThumbShift
  | TriggerKey
  | NNumberKey
deriving DecidableEq, Repr

/-- Thumb key sets (chord_engine.rs ThumbKeys); HashSet modelled as list. -/
structure ThumbKeys where
  left : List ScKey
  right : List ScKey
  ext1 : List ScKey
  ext2 : List ScKey
deriving DecidableEq, Repr

structure AdaptiveCfg where
  enabled : Bool
deriving DecidableEq, Repr

structure SuccessiveCfg where
  enabled : Bool
deriving DecidableEq, Repr

inductive ThumbShiftSinglePress where
  | None
  | Enable
  | PrefixShift
  | SpaceKey
deriving DecidableEq, Repr

inductive ImeMode where
  | Auto
  | Imm
  | Tsf
  | Ignore
  | ForceAlpha
deriving DecidableEq, Repr

inductive SuspendKey where
  | None
  | ScrollLock
  | Pause
  | Insert
  | RightShift
  | RightControl
  | RightAlt
deriving DecidableEq, Repr

inductive ThumbKeySelect where
  | None
  | Esc
  | Tab
  | Muhenkan
  | Space
  | Henkan
  | Enter
  | BackSpace
  | Delete
  | Insert
  | Up
  | Left
  | Right
  | Down
  | Home
  | End
  | PageUp
  | PageDown
  | LeftShift
  | RightShift
  | LeftCtrl
  | RightCtrl
  | Extended1
  | Extended2
  | Extended3
  | Extended4
deriving DecidableEq, Repr

def EXTENDED_KEY_1_SC : Nat := 0x0201
def EXTENDED_KEY_2_SC : Nat := 0x0202
def EXTENDED_KEY_3_SC : Nat := 0x0203
def EXTENDED_KEY_4_SC : Nat := 0x0204

/-- Per-thumb-side configuration (chord_engine.rs ThumbSideConfig). The
Rust field named after the repetition flag is rendered repeat_enabled. -/
structure ThumbSideConfig where
  key : ThumbKeySelect
  continuous : Bool
  single_press : ThumbShiftSinglePress
  repeat_enabled : Bool
deriving DecidableEq, Repr

/-- User profile (chord_engine.rs Profile). Thresholds are rationals. -/
structure Profile where
  chord_style : ChordStyle
  chord_window_ms : Nat
  max_chord_size : Nat
  adaptive_window : AdaptiveCfg
  thumb_keys : Option ThumbKeys
  trigger_keys : List (ScKey × String)
  target_keys : Option (List ScKey)
  successive : SuccessiveCfg
  char_key_repeat_assigned : Bool
  char_key_repeat_unassigned : Bool
  ime_mode : ImeMode
  suspend_key : SuspendKey
  thumb_left : ThumbSideConfig
  thumb_right : ThumbSideConfig
  extended_thumb1 : ThumbSideConfig
  extended_thumb2 : ThumbSideConfig
  thumb_shift_overlap_ratio : ℚ
  char_key_continuous : Bool
  char_key_overlap_ratio : ℚ
deriving DecidableEq, Repr

/-- Profile::default() from chord_engine.rs. -/
def Profile.default : Profile where
  chord_style := ChordStyle.TriggerKey
  chord_window_ms := 200
  max_chord_size := 2
  adaptive_window := ⟨false⟩
  thumb_keys := none
  trigger_keys := []
  target_keys := none
  successive := ⟨false⟩
  char_key_repeat_assigned := false
  char_key_repeat_unassigned := true
  ime_mode := ImeMode.Auto
  suspend_key := SuspendKey.None
  thumb_left := ⟨ThumbKeySelect.Muhenkan, false, ThumbShiftSinglePress.None, false⟩
  thumb_right := ⟨ThumbKeySelect.Henkan, false, ThumbShiftSinglePress.None, false⟩
  extended_thumb1 := ⟨ThumbKeySelect.Extended1, false, ThumbShiftSinglePress.None, false⟩
  extended_thumb2 := ⟨ThumbKeySelect.Extended2, false, ThumbShiftSinglePress.None, false⟩
  thumb_shift_overlap_ratio := mkRat 35 100
  char_key_continuous := false
  char_key_overlap_ratio := mkRat 35 100

/-- Pending key record (chord_engine.rs PendingKey). -/
structure PendingKey where
  key : ScKey
  t_down : Nat
  t_up : Option Nat
deriving DecidableEq, Repr

instance : Inhabited PendingKey := ⟨⟨⟨0, false⟩, 0, none⟩⟩

inductive LatchState where
  | None
  | OneShot (tag : String)
  | Lock (tag : String)
deriving DecidableEq, Repr

/-- Chord state machine state (chord_engine.rs ChordState). -/
structure ChordState where
  enabled : Bool
  pressed : List ScKey
  down_ts : List (ScKey × Nat)
  pending : List PendingKey
  latch : LatchState
  passed_keys : List ScKey
  used_modifiers : List ScKey
  prefix_pending : Option ScKey
deriving DecidableEq, Repr

/-- ChordState::default(). -/
def ChordState.default : ChordState where
  enabled := true
  pressed := []
  down_ts := []
  pending := []
  latch := LatchState.None
  passed_keys := []
  used_modifiers := []
  prefix_pending := none

inductive ModifierKind where
  | None
  | ThumbLeft
  | ThumbRight
  | ThumbExt1
  | ThumbExt2
  | CharShift
deriving DecidableEq, Repr

def ModifierKind.is_modifier : ModifierKind → Bool
  | ModifierKind.None => false
  | _ => true

/-- The thumb-kind test written as matches!(…, ThumbLeft | ThumbRight |
ThumbExt1 | ThumbExt2) in pair_overlap_ratio. -/
def ModifierKind.is_thumb_kind : ModifierKind → Bool
  | ModifierKind.ThumbLeft => true
  | ModifierKind.ThumbRight => true
  | ModifierKind.ThumbExt1 => true
  | ModifierKind.ThumbExt2 => true
  | _ => false

structure ChordEngine where
  profile : Profile
  state : ChordState
deriving DecidableEq, Repr

/-- ChordEngine::new. -/
def ChordEngine.new (profile : Profile) : ChordEngine :=
  ⟨profile, ChordState.default⟩

/-! Set / map helpers mirroring HashSet and HashMap operations. -/

/-- HashSet::insert on a list-modelled set. -/
def insertSet (s : List ScKey) (k : ScKey) : List ScKey :=
  if s.contains k then s else s ++ [k]

/-- HashSet::remove on a list-modelled set. -/
def removeSet (s : List ScKey) (k : ScKey) : List ScKey :=
  s.filter (fun x => !(x == k))

/-- HashMap::insert on a list-modelled map. -/
def mapInsert (m : List (ScKey × Nat)) (k : ScKey) (v : Nat) : List (ScKey × Nat) :=
  if m.any (fun p => p.1 == k) then
    m.map (fun p => if p.1 == k then (k, v) else p)
  else
    m ++ [(k, v)]

/-- HashMap::remove on a list-modelled map. -/
def mapRemove (m : List (ScKey × Nat)) (k : ScKey) : List (ScKey × Nat) :=
  m.filter (fun p => !(p.1 == k))

/-- ChordEngine::modifier_kind. -/
def modifierKind (pr : Profile) (key : ScKey) : ModifierKind :=
  match pr.thumb_keys with
  | some tk =>
    if tk.left.contains key then ModifierKind.ThumbLeft
    else if tk.right.contains key then ModifierKind.ThumbRight
    else if tk.ext1.contains key then ModifierKind.ThumbExt1
    else if tk.ext2.contains key then ModifierKind.ThumbExt2
    else if pr.trigger_keys.any (fun p => p.1 == key) then ModifierKind.CharShift
    else ModifierKind.None
  | none =>
    if pr.trigger_keys.any (fun p => p.1 == key) then ModifierKind.CharShift
    else ModifierKind.None

/-- ChordEngine::modifier_is_continuous. -/
def modifierIsContinuous (pr : Profile) (kind : ModifierKind) : Bool :=
  match kind with
  | ModifierKind.ThumbLeft => pr.thumb_left.continuous
  | ModifierKind.ThumbRight => pr.thumb_right.continuous
  | ModifierKind.ThumbExt1 => pr.extended_thumb1.continuous
  | ModifierKind.ThumbExt2 => pr.extended_thumb2.continuous
  | ModifierKind.CharShift => pr.char_key_continuous
  | ModifierKind.None => false

/-- ChordEngine::is_modifier_key. -/
def isModifierKey (pr : Profile) (key : ScKey) : Bool :=
  (modifierKind pr key).is_modifier

/-- ChordEngine::pair_overlap_ratio. Returns none exactly where the Rust
function defers the pair, otherwise the exact overlap ratio. The f64
quotient of two nonnegative durations is modelled as the exact rational
mkRat overlap_dur ratio_den. -/
def pairOverlapRatio (pr : Profile) (p1 p2 : PendingKey) (now : Nat)
    (trigger : Option (ScKey × KeyEdge)) : Option ℚ :=
  let p1_end := p1.t_up.getD now
  let step : Option (Nat × Nat) :=
    match p2.t_up with
    | some p2_up =>
      let p2_dur := p2_up - p2.t_down
      if 0 < p2_dur then some (p2_up, p2_dur) else some (p2_up, 0)
    | none =>
      if p1.t_up.isNone then none
      else
        let kind1 := modifierKind pr p1.key
        let kind2 := modifierKind pr p2.key
        let immediate_continuous_modifier :=
          kind2.is_modifier && modifierIsContinuous pr kind2 && !kind1.is_modifier
        if immediate_continuous_modifier then
          let p1_dur := p1_end - p1.t_down
          if 0 < p1_dur then some (p1_end, p1_dur) else some (p1_end, 0)
        else
          let is_char_pair := !kind1.is_thumb_kind && !kind2.is_thumb_kind
          let third_key_down :=
            (match trigger with
             | some (k, KeyEdge.Down) => !(k == p1.key) && !(k == p2.key)
             | _ => false) && decide (p2.t_down < now)
          if !(pr.char_key_continuous && is_char_pair && third_key_down) then none
          else
            let p2_dur := now - p2.t_down
            if p2_dur == 0 then none
            else some (now, p2_dur)
  match step with
  | none => none
  | some (p2_end, ratio_den) =>
    let overlap_start := p2.t_down
    let overlap_end := min p1_end p2_end
    let overlap_dur : Nat := overlap_end - overlap_start
    if 0 < ratio_den then some (mkRat overlap_dur ratio_den) else some 0

/-- Accumulator for the check_chords double loop: emitted decisions,
consumed and flushed pending indices, and the used_modifiers set as it is
mutated during the pass. -/
structure ChordScan where
  out : List Decision
  consumed : List Nat
  flushed : List Nat
  used : List ScKey
deriving DecidableEq, Repr

/-- Inner loop of check_chords: fixed earliest index idx1, scanning the
later ordered indices. -/
def chordInner (pr : Profile) (pressed : List ScKey) (pending : List PendingKey)
    (now : Nat) (trigger : Option (ScKey × KeyEdge)) (idx1 : Nat) :
    List Nat → ChordScan → ChordScan
  | [], acc => acc
  | idx2 :: rest, acc =>
    if acc.consumed.contains idx2 || acc.flushed.contains idx2 then
      chordInner pr pressed pending now trigger idx1 rest acc
    else
      let p1 := pending.getD idx1 default
      let p2 := pending.getD idx2 default
      match pairOverlapRatio pr p1 p2 now trigger with
      | none => acc
      | some ratio =>
        if pr.char_key_overlap_ratio ≤ ratio then
          let k1 := p1.key
          let k2 := p2.key
          let kind1 := modifierKind pr k1
          let kind2 := modifierKind pr k2
          let used1 := if kind1.is_modifier then insertSet acc.used k1 else acc.used
          let used2 := if kind2.is_modifier then insertSet used1 k2 else used1
          let continuous1 := modifierIsContinuous pr kind1
          let continuous2 := modifierIsContinuous pr kind2
          let keep1 := kind1.is_modifier && continuous1 && pressed.contains k1
          let keep2 := kind2.is_modifier && continuous2 && pressed.contains k2
          let consumed1 := if !keep1 then idx1 :: acc.consumed else acc.consumed
          let consumed2 := if !keep2 then idx2 :: consumed1 else consumed1
          let acc2 : ChordScan :=
            ⟨acc.out ++ [Decision.Chord [k1, k2]], consumed2, acc.flushed, used2⟩
          if consumed2.contains idx1 then acc2
          else chordInner pr pressed pending now trigger idx1 rest acc2
        else
          let kind1 := modifierKind pr p1.key
          let suppress_p1_tap :=
            kind1.is_modifier && modifierIsContinuous pr kind1 &&
              acc.used.contains p1.key
          ⟨acc.out ++ (if suppress_p1_tap then [] else [Decision.KeyTap p1.key]),
            acc.consumed, idx1 :: acc.flushed, acc.used⟩

/-- Outer loop of check_chords over the t_down ordered index list. -/
def chordOuter (pr : Profile) (pressed : List ScKey) (pending : List PendingKey)
    (now : Nat) (trigger : Option (ScKey × KeyEdge)) :
    List Nat → ChordScan → ChordScan
  | [], acc => acc
  | idx1 :: rest, acc =>
    if acc.consumed.contains idx1 || acc.flushed.contains idx1 then
      chordOuter pr pressed pending now trigger rest acc
    else
      chordOuter pr pressed pending now trigger rest
        (chordInner pr pressed pending now trigger idx1 rest acc)

/-- Rebuild phase of check_chords: drop consumed / flushed records in
index order, cleaning down_ts entries of keys no longer pressed. -/
def chordRebuild (pressed : List ScKey) (consumed flushed : List Nat) :
    Nat → List PendingKey → List (ScKey × Nat) →
    List PendingKey × List (ScKey × Nat)
  | _, [], dts => ([], dts)
  | i, p :: ps, dts =>
    if consumed.contains i || flushed.contains i then
      let dts2 := if pressed.contains p.key then dts else mapRemove dts p.key
      chordRebuild pressed consumed flushed (i + 1) ps dts2
    else
      let r := chordRebuild pressed consumed flushed (i + 1) ps dts
      (p :: r.1, r.2)

/-- Stable insertion of an index into an already sorted index list: the
new element goes after every element that compares less-or-equal. -/
def insertStable (le : Nat → Nat → Bool) (a : Nat) : List Nat → List Nat
  | [] => [a]
  | b :: bs => if le b a then b :: insertStable le a bs else a :: b :: bs

/-- Stable sort of an index list. Vec::sort_by in Rust guarantees a
stable sort; insertion of the elements in order realises one. -/
def stableSortBy (le : Nat → Nat → Bool) (l : List Nat) : List Nat :=
  l.foldl (fun acc a => insertStable le a acc) []

/-- The t_down comparison check_chords sorts the pending indices by. -/
def tDownLe (pending : List PendingKey) (a b : Nat) : Bool :=
  decide ((pending.getD a default).t_down ≤ (pending.getD b default).t_down)

/-- ChordEngine::check_chords. -/
def checkChords (e : ChordEngine) (now : Nat)
    (trigger : Option (ScKey × KeyEdge)) : ChordEngine × List Decision :=
  if e.state.pending.length < 2 then (e, [])
  else
    let pending := e.state.pending
    let ordered := stableSortBy (tDownLe pending) (List.range pending.length)
    let scan := chordOuter e.profile e.state.pressed pending now trigger ordered
      ⟨[], [], [], e.state.used_modifiers⟩
    let st1 := { e.state with used_modifiers := scan.used }
    if scan.consumed.isEmpty && scan.flushed.isEmpty then
      ({ e with state := st1 }, scan.out)
    else
      let r := chordRebuild st1.pressed scan.consumed scan.flushed 0 pending st1.down_ts
      ({ e with state := { st1 with pending := r.1, down_ts := r.2 } }, scan.out)

/-- ChordEngine::flush_pending_with_cutoff. -/
def flushPendingWithCutoff (e : ChordEngine) (now : Nat) :
    ChordEngine × List Decision :=
  let pending1 := e.state.pending.map
    (fun p => if p.t_up.isNone then { p with t_up := some now } else p)
  let e1 := { e with state := { e.state with pending := pending1 } }
  let r := checkChords e1 now none
  let e2 := r.1
  if !e2.state.pending.isEmpty then
    let taps := e2.state.pending.map (fun p => Decision.KeyTap p.key)
    let down2 := e2.state.pending.foldl
      (fun d p => if e2.state.pressed.contains p.key then d else mapRemove d p.key)
      e2.state.down_ts
    ({ e2 with state := { e2.state with pending := [], down_ts := down2 } },
      r.2 ++ taps)
  else
    (e2, r.2)

/-- ChordEngine::flush_all_pending. -/
def flushAllPending (e : ChordEngine) : ChordEngine × List Decision :=
  let taps := e.state.pending.map (fun p => Decision.KeyTap p.key)
  let down2 := e.state.pending.foldl
    (fun d p => if e.state.pressed.contains p.key then d else mapRemove d p.key)
    e.state.down_ts
  ({ e with state := { e.state with pending := [], down_ts := down2 } }, taps)

/-- Set t_up on the first pending record for the key, as iter_mut().find
does in the Rust Up handler. -/
def setTUpFirst : List PendingKey → ScKey → Nat → List PendingKey
  | [], _, _ => []
  | p :: ps, k, now =>
    if p.key == k then { p with t_up := some now } :: ps
    else p :: setTUpFirst ps k now

/-- The single-press setting the lonely-tap flush selects for a thumb
modifier kind (inner match of on_event). -/
def singlePressFor (pr : Profile) (mk : ModifierKind) : ThumbShiftSinglePress :=
  match mk with
  | ModifierKind.ThumbLeft => pr.thumb_left.single_press
  | ModifierKind.ThumbRight => pr.thumb_right.single_press
  | ModifierKind.ThumbExt1 => pr.extended_thumb1.single_press
  | ModifierKind.ThumbExt2 => pr.extended_thumb2.single_press
  | _ => ThumbShiftSinglePress.None

/-- ChordEngine::on_event. Returns the successor engine and the decision
batch for the event. -/
def onEvent (e : ChordEngine) (ev : KeyEvent) : ChordEngine × List Decision :=
  if ev.injected then (e, [])
  else
    let now := ev.t
    if ev.edge == KeyEdge.Up && e.state.passed_keys.contains ev.key then
      ({ e with state :=
          { e.state with
            passed_keys := removeSet e.state.passed_keys ev.key
            pressed := removeSet e.state.pressed ev.key
            down_ts := mapRemove e.state.down_ts ev.key } },
        [Decision.Passthrough ev.key KeyEdge.Up])
    else if ev.edge == KeyEdge.Down && ev.key.sc == 0x39 &&
        !isModifierKey e.profile ev.key then
      let r := flushPendingWithCutoff e now
      ({ r.1 with state :=
          { r.1.state with passed_keys := insertSet r.1.state.passed_keys ev.key } },
        r.2 ++ [Decision.Passthrough ev.key KeyEdge.Down])
    else if (match e.profile.target_keys with
             | some targets => !targets.contains ev.key
             | none => false) then
      (e, [Decision.Passthrough ev.key ev.edge])
    else
      match ev.edge with
      | KeyEdge.Down =>
        let st := e.state
        let pressed1 := insertSet st.pressed ev.key
        let down1 := mapInsert st.down_ts ev.key now
        let used1 :=
          if modifierKind e.profile ev.key == ModifierKind.CharShift then
            removeSet st.used_modifiers ev.key
          else st.used_modifiers
        match st.prefix_pending with
        | some prefix_thumb =>
          ({ e with state :=
              { st with
                pressed := pressed1
                down_ts := down1
                used_modifiers := insertSet used1 prefix_thumb
                prefix_pending := none } },
            [Decision.Chord [prefix_thumb, ev.key]])
        | none =>
          let pending1 :=
            if st.pending.any (fun p => p.key == ev.key) then st.pending
            else st.pending ++ [⟨ev.key, now, none⟩]
          let e1 := { e with state :=
            { st with
              pressed := pressed1
              down_ts := down1
              used_modifiers := used1
              pending := pending1 } }
          checkChords e1 now (some (ev.key, KeyEdge.Down))
      | KeyEdge.Up =>
        let st := e.state
        let e1 := { e with state :=
          { st with
            pressed := removeSet st.pressed ev.key
            pending := setTUpFirst st.pending ev.key now } }
        let r := checkChords e1 now (some (ev.key, KeyEdge.Up))
        let e2 := r.1
        let chords := r.2
        match e2.state.pending with
        | [p] =>
          if p.t_up.isSome then
            let key := p.key
            let mk := modifierKind e2.profile key
            let st2 := e2.state
            let cleared := { st2 with
              pending := ([] : List PendingKey)
              down_ts := mapRemove st2.down_ts key }
            match mk with
            | ModifierKind.ThumbLeft | ModifierKind.ThumbRight
            | ModifierKind.ThumbExt1 | ModifierKind.ThumbExt2 =>
              if st2.used_modifiers.contains key then
                ({ e2 with state :=
                    { cleared with used_modifiers := removeSet st2.used_modifiers key } },
                  chords)
              else
                match singlePressFor e2.profile mk with
                | ThumbShiftSinglePress.None => ({ e2 with state := cleared }, chords)
                | ThumbShiftSinglePress.Enable =>
                  ({ e2 with state := cleared }, chords ++ [Decision.KeyTap key])
                | ThumbShiftSinglePress.PrefixShift =>
                  ({ e2 with state := { cleared with prefix_pending := some key } },
                    chords)
                | ThumbShiftSinglePress.SpaceKey =>
                  ({ e2 with state := cleared },
                    chords ++ [Decision.KeyTap (ScKey.new 0x39 false)])
            | ModifierKind.CharShift =>
              if st2.used_modifiers.contains key then
                ({ e2 with state :=
                    { cleared with used_modifiers := removeSet st2.used_modifiers key } },
                  chords)
              else
                ({ e2 with state := cleared }, chords ++ [Decision.KeyTap key])
            | ModifierKind.None =>
              ({ e2 with state := cleared }, chords ++ [Decision.KeyTap key])
          else
            (e2, chords)
        | _ => (e2, chords)

/-- Run a list of events through the chord engine, collecting each
decision batch. -/
def runEvents (e : ChordEngine) : List KeyEvent → ChordEngine × List (List Decision)
  | [] => (e, [])
  | ev :: rest =>
    let r := onEvent e ev
    let r2 := runEvents r.1 rest
    (r2.1, r.2 :: r2.2)

/-! Data model of types.rs. -/

/-- Row and column in the layout matrix (types.rs Rc). -/
structure Rc where
  row : Nat
  col : Nat
deriving DecidableEq, Repr

def Rc.new (row col : Nat) : Rc := ⟨row, col⟩

/-- Modifier keys applied to a keystroke (types.rs Modifiers). -/
structure Modifiers where
  ctrl : Bool
  shift : Bool
  alt : Bool
  win : Bool
deriving DecidableEq, Repr

def Modifiers.none : Modifiers := ⟨false, false, false, false⟩

def Modifiers.is_empty (m : Modifiers) : Bool :=
  !(m.ctrl || m.shift || m.alt || m.win)

/-- Key specification inside a keystroke sequence (types.rs KeySpec). -/
inductive KeySpec where
  | Char (c : Char)
  | Scancode (sc : Nat) (ext : Bool)
  | VirtualKey (vk : Nat)
  | ImeOn
  | ImeOff
  | DirectString (s : String)
deriving DecidableEq, Repr

/-- A single keystroke with optional modifiers (types.rs KeyStroke). -/
structure KeyStroke where
  key : KeySpec
  mods : Modifiers
deriving DecidableEq, Repr

/-- Output token of a layout cell (types.rs Token). -/
inductive Token where
  | KeySequence (seq : List KeyStroke)
  | ImeChar (text : String)
  | DirectChar (text : String)
  | None
deriving DecidableEq, Repr

/-- Event to be injected (types.rs InputEvent). -/
inductive InputEvent where
  | Scancode (sc : Nat) (ext : Bool) (up : Bool)
  | Unicode (c : Char) (up : Bool)
  | ImeControl (is_on : Bool)
  | WaitUntilImeStatus (expected : Bool) (timeout_ms : Nat)
  | Delay (ms : Nat)
  | DirectString (s : String)
deriving DecidableEq, Repr

/-- Action returned to the hook (types.rs KeyAction). -/
inductive KeyAction where
  | Pass
  | Block
  | Inject (events : List InputEvent)
deriving DecidableEq, Repr

/-- A plane maps (row, col) cells to tokens (types.rs Plane). -/
structure Plane where
  map : List (Rc × Token)
deriving DecidableEq, Repr

/-- A section: base plane plus tagged sub-planes (types.rs Section). -/
structure Section where
  name : String
  base_plane : Plane
  sub_planes : List (String × Plane)
deriving DecidableEq, Repr

/-- A layout (types.rs Layout). -/
structure Layout where
  name : Option String
  sections : List (String × Section)
  function_key_swaps : List (String × String)
  max_chord_size : Nat
deriving DecidableEq, Repr

/-! The static JIS scancode tables of jis_map.rs. -/

/-- jis_map.rs JIS_SC_TO_RC. -/
def JIS_SC_TO_RC : List (ScKey × Rc) :=
  [ (ScKey.new 0x02 false, Rc.new 0 0), (ScKey.new 0x03 false, Rc.new 0 1),
    (ScKey.new 0x04 false, Rc.new 0 2), (ScKey.new 0x05 false, Rc.new 0 3),
    (ScKey.new 0x06 false, Rc.new 0 4), (ScKey.new 0x07 false, Rc.new 0 5),
    (ScKey.new 0x08 false, Rc.new 0 6), (ScKey.new 0x09 false, Rc.new 0 7),
    (ScKey.new 0x0A false, Rc.new 0 8), (ScKey.new 0x0B false, Rc.new 0 9),
    (ScKey.new 0x0C false, Rc.new 0 10), (ScKey.new 0x0D false, Rc.new 0 11),
    (ScKey.new 0x7D false, Rc.new 0 12),
    (ScKey.new 0x10 false, Rc.new 1 0), (ScKey.new 0x11 false, Rc.new 1 1),
    (ScKey.new 0x12 false, Rc.new 1 2), (ScKey.new 0x13 false, Rc.new 1 3),
    (ScKey.new 0x14 false, Rc.new 1 4), (ScKey.new 0x15 false, Rc.new 1 5),
    (ScKey.new 0x16 false, Rc.new 1 6), (ScKey.new 0x17 false, Rc.new 1 7),
    (ScKey.new 0x18 false, Rc.new 1 8), (ScKey.new 0x19 false, Rc.new 1 9),
    (ScKey.new 0x1A false, Rc.new 1 10), (ScKey.new 0x1B false, Rc.new 1 11),
    (ScKey.new 0x1E false, Rc.new 2 0), (ScKey.new 0x1F false, Rc.new 2 1),
    (ScKey.new 0x20 false, Rc.new 2 2), (ScKey.new 0x21 false, Rc.new 2 3),
    (ScKey.new 0x22 false, Rc.new 2 4), (ScKey.new 0x23 false, Rc.new 2 5),
    (ScKey.new 0x24 false, Rc.new 2 6), (ScKey.new 0x25 false, Rc.new 2 7),
    (ScKey.new 0x26 false, Rc.new 2 8), (ScKey.new 0x27 false, Rc.new 2 9),
    (ScKey.new 0x28 false, Rc.new 2 10), (ScKey.new 0x2B false, Rc.new 2 11),
    (ScKey.new 0x2C false, Rc.new 3 0), (ScKey.new 0x2D false, Rc.new 3 1),
    (ScKey.new 0x2E false, Rc.new 3 2), (ScKey.new 0x2F false, Rc.new 3 3),
    (ScKey.new 0x30 false, Rc.new 3 4), (ScKey.new 0x31 false, Rc.new 3 5),
    (ScKey.new 0x32 false, Rc.new 3 6), (ScKey.new 0x33 false, Rc.new 3 7),
    (ScKey.new 0x34 false, Rc.new 3 8), (ScKey.new 0x35 false, Rc.new 3 9),
    (ScKey.new 0x73 false, Rc.new 3 10) ]

/-- jis_map.rs sc_to_key_name. -/
def scToKeyName (sc : Nat) : Option String :=
  match sc with
  | 0x02 => some "1" | 0x03 => some "2" | 0x04 => some "3" | 0x05 => some "4"
  | 0x06 => some "5" | 0x07 => some "6" | 0x08 => some "7" | 0x09 => some "8"
  | 0x0A => some "9" | 0x0B => some "0" | 0x0C => some "-" | 0x0D => some "^"
  | 0x7D => some "\\"
  | 0x10 => some "q" | 0x11 => some "w" | 0x12 => some "e" | 0x13 => some "r"
  | 0x14 => some "t" | 0x15 => some "y" | 0x16 => some "u" | 0x17 => some "i"
  | 0x18 => some "o" | 0x19 => some "p" | 0x1A => some "@" | 0x1B => some "["
  | 0x1E => some "a" | 0x1F => some "s" | 0x20 => some "d" | 0x21 => some "f"
  | 0x22 => some "g" | 0x23 => some "h" | 0x24 => some "j" | 0x25 => some "k"
  | 0x26 => some "l" | 0x27 => some ";" | 0x28 => some ":" | 0x2B => some "]"
  | 0x2C => some "z" | 0x2D => some "x" | 0x2E => some "c" | 0x2F => some "v"
  | 0x30 => some "b" | 0x31 => some "n" | 0x32 => some "m" | 0x33 => some ","
  | 0x34 => some "." | 0x35 => some "/" | 0x73 => some "_"
  | 0x39 => some "space" | 0x79 => some "henkan" | 0x7B => some "muhenkan"
  | _ => none

/-- Engine::key_to_rc. -/
def keyToRc (key : ScKey) : Option Rc :=
  (JIS_SC_TO_RC.find? (fun p => p.1 == key)).map (fun p => p.2)

/-- Lookup in a plane map (HashMap get). -/
def planeGet (p : Plane) (rc : Rc) : Option Token :=
  (p.map.find? (fun q => q.1 == rc)).map (fun q => q.2)

/-- Lookup of a section by name (HashMap get). -/
def sectionsGet (l : List (String × Section)) (name : String) : Option Section :=
  (l.find? (fun q => q.1 == name)).map (fun q => q.2)

/-- Lookup of a sub-plane by tag (HashMap get). -/
def subPlanesGet (l : List (String × Plane)) (tag : String) : Option Plane :=
  (l.find? (fun q => q.1 == tag)).map (fun q => q.2)

/-! The engine of engine.rs. OS collaborators (IME queries and
MapVirtualKeyW) are abstracted into an oracle record. -/

/-- External-environment oracle: results of the OS IME queries and of the
MapVirtualKeyW scancode translation during one processed event. -/
structure ExtEnv where
  os_japanese : Bool
  ime_open : Option Bool
  vk_to_sc : Nat → Option (Nat × Bool)

/-- ime.rs is_japanese_input_active: Ignore forces Japanese, ForceAlpha
forces alphanumeric, every other mode consults the OS (oracle). -/
def isJapaneseInputActive (env : ExtEnv) (mode : ImeMode) : Bool :=
  match mode with
  | ImeMode.Ignore => true
  | ImeMode.ForceAlpha => false
  | _ => env.os_japanese

inductive FunctionKeySwapTarget where
  | Key (k : ScKey)
  | CapsLock
  | KanaLock
deriving DecidableEq, Repr

inductive FunctionPseudoKey where
  | CapsLock
  | KanaLock
deriving DecidableEq, Repr

inductive PassThroughCurrent where
  | Original
  | Inject (k : ScKey)
  | Block
deriving DecidableEq, Repr

structure DeferredEnterRollover where
  source_key : ScKey
  pass_through : PassThroughCurrent
  wait_for : ScKey
  down_emitted : Bool
  up_seen_while_waiting : Bool
deriving DecidableEq, Repr

/-- Engine state (engine.rs Engine). The on_enabled_change callback is
modelled by a registration flag; invocations are returned as a list of
arguments by setEnabled. -/
structure Engine where
  chord_engine : ChordEngine
  enabled : Bool
  layout : Option Layout
  on_enabled_change : Bool
  repeat_plans : List (ScKey × List ScKey)
  pending_nonshift_for_shift : List ScKey
  function_key_swaps : List (ScKey × FunctionKeySwapTarget)
  deferred_enter_rollover : Option DeferredEnterRollover

/-- Engine::set_enabled; the second component lists the arguments the
registered enabled-change callback is invoked with. -/
def setEnabled (e : Engine) (enabled : Bool) : Engine × List Bool :=
  if e.enabled != enabled then
    let e1 := { e with enabled := enabled }
    let e2 :=
      if !enabled then
        { e1 with
          chord_engine := ChordEngine.new e.chord_engine.profile
          repeat_plans := []
          pending_nonshift_for_shift := []
          deferred_enter_rollover := none }
      else e1
    (e2, if e.on_enabled_change then [enabled] else [])
  else (e, [])

/-- engine.rs is_virtual_extended_key. -/
def isVirtualExtendedKey (key : ScKey) : Bool :=
  !key.ext && (key.sc == EXTENDED_KEY_1_SC || key.sc == EXTENDED_KEY_2_SC ||
    key.sc == EXTENDED_KEY_3_SC || key.sc == EXTENDED_KEY_4_SC)

/-- Body of the remap_input_key swap-chain loop. Rust runs an unbounded
while-let guarded by a visited set; here the loop is given explicit fuel
and returns none on exhaustion. remapInputKey supplies fuel
swaps.length + 1, which theorem remap_loop_total shows can never be
exhausted. Left = normal loop exit (current, changed); Right = early
return with a pseudo key. -/
def remapLoop (swaps : List (ScKey × FunctionKeySwapTarget)) :
    Nat → List ScKey → ScKey → Bool →
    Option ((ScKey × Bool) ⊕ (ScKey × FunctionPseudoKey))
  | 0, _, _, _ => none
  | fuel + 1, visited, current, changed =>
    match List.lookup current swaps with
    | none => some (Sum.inl (current, changed))
    | some target =>
      if visited.contains current then some (Sum.inl (current, changed))
      else
        match target with
        | FunctionKeySwapTarget.Key next =>
          remapLoop swaps fuel (current :: visited) next true
        | FunctionKeySwapTarget.CapsLock =>
          some (Sum.inr (current, FunctionPseudoKey.CapsLock))
        | FunctionKeySwapTarget.KanaLock =>
          some (Sum.inr (current, FunctionPseudoKey.KanaLock))

/-- Engine::remap_input_key. -/
def remapInputKey (e : Engine) (source_key : ScKey) :
    ScKey × PassThroughCurrent × Option FunctionPseudoKey :=
  match remapLoop e.function_key_swaps (e.function_key_swaps.length + 1)
      [] source_key false with
  | some (Sum.inl (current, changed)) =>
    let pass :=
      if !changed then PassThroughCurrent.Original
      else if isVirtualExtendedKey current then PassThroughCurrent.Block
      else PassThroughCurrent.Inject current
    (current, pass, none)
  | some (Sum.inr (current, pseudo)) =>
    (current, PassThroughCurrent.Block, some pseudo)
  | none => (source_key, PassThroughCurrent.Original, none)

/-- engine.rs emit_pseudo_function_key. -/
def emitPseudoFunctionKey (pseudo : FunctionPseudoKey) (up : Bool) : KeyAction :=
  if up then KeyAction.Block
  else
    match pseudo with
    | FunctionPseudoKey.CapsLock =>
      KeyAction.Inject
        [ InputEvent.Scancode 0x2A false false, InputEvent.Scancode 0x3A false false,
          InputEvent.Scancode 0x3A false true, InputEvent.Scancode 0x2A false true ]
    | FunctionPseudoKey.KanaLock =>
      KeyAction.Inject
        [ InputEvent.Scancode 0x1D false false, InputEvent.Scancode 0x2A false false,
          InputEvent.Scancode 0x70 false false, InputEvent.Scancode 0x70 false true,
          InputEvent.Scancode 0x2A false true, InputEvent.Scancode 0x1D false true ]

/-- engine.rs passthrough_event. -/
def passthroughEvent (mode : PassThroughCurrent) (source_key : ScKey) (up : Bool) :
    Option InputEvent :=
  match mode with
  | PassThroughCurrent.Original => some (InputEvent.Scancode source_key.sc source_key.ext up)
  | PassThroughCurrent.Inject key => some (InputEvent.Scancode key.sc key.ext up)
  | PassThroughCurrent.Block => none

/-- engine.rs passthrough_action. -/
def passthroughAction (mode : PassThroughCurrent) (up : Bool) : KeyAction :=
  match mode with
  | PassThroughCurrent.Original => KeyAction.Pass
  | PassThroughCurrent.Inject key => KeyAction.Inject [InputEvent.Scancode key.sc key.ext up]
  | PassThroughCurrent.Block => KeyAction.Block

/-- The section-name suffix table shared by process_key's pre-check and
resolve_with_modifier (identical string logic in both). -/
def sectionSuffix (shift tl tr : Bool) : String :=
  if shift then
    if tl then "小指左親指シフト"
    else if tr then "小指右親指シフト"
    else "小指シフト"
  else
    if tl then "左親指シフト"
    else if tr then "右親指シフト"
    else "シフト無し"

/-- Full section-name selection including the Ext1/Ext2 overrides. -/
def sectionNameFor (is_japanese shift tl tr te1 te2 : Bool) : String :=
  let base := (if is_japanese then "ローマ字" else "英数") ++ sectionSuffix shift tl tr
  if is_japanese && !tl && !tr && te1 then "拡張親指シフト1"
  else if is_japanese && !tl && !tr && te2 then "拡張親指シフト2"
  else base

/-- Thumb flags of a key list (the marking loop of resolve_with_modifier). -/
def thumbFlagsOfKeys (tkOpt : Option ThumbKeys) (keys : List ScKey) :
    Bool × Bool × Bool × Bool :=
  match tkOpt with
  | some tk =>
    (keys.any tk.left.contains, keys.any tk.right.contains,
      keys.any tk.ext1.contains, keys.any tk.ext2.contains)
  | none => (false, false, false, false)

/-- Engine::try_resolve_modifier. -/
def tryResolveModifier (sec : Section) (mod_key target_key : ScKey) : Option Token :=
  match scToKeyName mod_key.sc with
  | none => none
  | some mod_name =>
    match subPlanesGet sec.sub_planes ("<" ++ mod_name ++ ">") with
    | none => none
    | some sub =>
      match keyToRc target_key with
      | none => none
      | some rc =>
        match planeGet sub rc with
        | some token => if token == Token.None then none else some token
        | none => none

/-- Engine::try_resolve_double_modifier. -/
def tryResolveDoubleModifier (sec : Section) (mod1 mod2 target : ScKey) :
    Option Token :=
  match scToKeyName mod1.sc with
  | none => none
  | some name1 =>
    match scToKeyName mod2.sc with
    | none => none
    | some name2 =>
      match subPlanesGet sec.sub_planes ("<" ++ name1 ++ "><" ++ name2 ++ ">") with
      | none => none
      | some sub =>
        match keyToRc target with
        | none => none
        | some rc =>
          match planeGet sub rc with
          | some token => if token == Token.None then none else some token
          | none => none

/-- Engine::resolve_with_modifier. -/
def resolveWithModifier (e : Engine) (keys : List ScKey) (shift is_japanese : Bool) :
    Option Token × Option ScKey :=
  match e.layout with
  | none => (none, none)
  | some layout =>
    let flags := thumbFlagsOfKeys e.chord_engine.profile.thumb_keys keys
    let tl := flags.1
    let tr := flags.2.1
    let te1 := flags.2.2.1
    let te2 := flags.2.2.2
    let secName := sectionNameFor is_japanese shift tl tr te1 te2
    match sectionsGet layout.sections secName with
    | none => (none, none)
    | some sec =>
      let lookup_keys :=
        if tl || tr || te1 || te2 then
          match e.chord_engine.profile.thumb_keys with
          | some tk =>
            keys.filter (fun k =>
              !((tl && tk.left.contains k) || (tr && tk.right.contains k) ||
                (te1 && tk.ext1.contains k) || (te2 && tk.ext2.contains k)))
          | none => keys
        else keys
      match lookup_keys with
      | [] => (none, none)
      | [key] =>
        let latchHit : Option Token :=
          match e.chord_engine.state.latch with
          | LatchState.OneShot tag =>
            (match subPlanesGet sec.sub_planes tag with
             | some sub =>
               (match keyToRc key with
                | some rc => planeGet sub rc
                | none => none)
             | none => none)
          | LatchState.Lock tag =>
            (match subPlanesGet sec.sub_planes tag with
             | some sub =>
               (match keyToRc key with
                | some rc => planeGet sub rc
                | none => none)
             | none => none)
          | LatchState.None => none
        match latchHit with
        | some token => (some token, none)
        | none =>
          match keyToRc key with
          | some rc => (planeGet sec.base_plane rc, none)
          | none => (none, none)
      | [k1, k2] =>
        (match tryResolveModifier sec k1 k2 with
         | some token => (some token, some k1)
         | none =>
           match tryResolveModifier sec k2 k1 with
           | some token => (some token, some k2)
           | none => (none, none))
      | [k1, k2, k3] =>
        (match tryResolveDoubleModifier sec k1 k2 k3 with
         | some token => (some token, some k1)
         | none =>
           match tryResolveDoubleModifier sec k2 k1 k3 with
           | some token => (some token, some k2)
           | none =>
             match tryResolveDoubleModifier sec k1 k3 k2 with
             | some token => (some token, some k1)
             | none =>
               match tryResolveDoubleModifier sec k3 k1 k2 with
               | some token => (some token, some k3)
               | none =>
                 match tryResolveDoubleModifier sec k2 k3 k1 with
                 | some token => (some token, some k2)
                 | none =>
                   match tryResolveDoubleModifier sec k3 k2 k1 with
                   | some token => (some token, some k3)
                   | none => (none, none))
      | _ => (none, none)

/-- Engine::resolve. -/
def resolve (e : Engine) (keys : List ScKey) (shift is_japanese : Bool) :
    Option Token :=
  (resolveWithModifier e keys shift is_japanese).1

/-- engine.rs char_to_scancode: (scancode, extended, needs_shift). -/
def charToScancode (c : Char) (is_japanese : Bool) : Option (Nat × Bool × Bool) :=
  if is_japanese && c = '、' then some (0x33, false, false)
  else if is_japanese && c = '。' then some (0x34, false, false)
  else if is_japanese && c = '・' then some (0x35, false, false)
  else if is_japanese && c = '「' then some (0x1B, false, false)
  else if is_japanese && c = '」' then some (0x2B, false, false)
  else
    match c with
    | 'a' => some (0x1E, false, false) | 'b' => some (0x30, false, false)
    | 'c' => some (0x2E, false, false) | 'd' => some (0x20, false, false)
    | 'e' => some (0x12, false, false) | 'f' => some (0x21, false, false)
    | 'g' => some (0x22, false, false) | 'h' => some (0x23, false, false)
    | 'i' => some (0x17, false, false) | 'j' => some (0x24, false, false)
    | 'k' => some (0x25, false, false) | 'l' => some (0x26, false, false)
    | 'm' => some (0x32, false, false) | 'n' => some (0x31, false, false)
    | 'o' => some (0x18, false, false) | 'p' => some (0x19, false, false)
    | 'q' => some (0x10, false, false) | 'r' => some (0x13, false, false)
    | 's' => some (0x1F, false, false) | 't' => some (0x14, false, false)
    | 'u' => some (0x16, false, false) | 'v' => some (0x2F, false, false)
    | 'w' => some (0x11, false, false) | 'x' => some (0x2D, false, false)
    | 'y' => some (0x15, false, false) | 'z' => some (0x2C, false, false)
    | 'A' => some (0x1E, false, true) | 'B' => some (0x30, false, true)
    | 'C' => some (0x2E, false, true) | 'D' => some (0x20, false, true)
    | 'E' => some (0x12, false, true) | 'F' => some (0x21, false, true)
    | 'G' => some (0x22, false, true) | 'H' => some (0x23, false, true)
    | 'I' => some (0x17, false, true) | 'J' => some (0x24, false, true)
    | 'K' => some (0x25, false, true) | 'L' => some (0x26, false, true)
    | 'M' => some (0x32, false, true) | 'N' => some (0x31, false, true)
    | 'O' => some (0x18, false, true) | 'P' => some (0x19, false, true)
    | 'Q' => some (0x10, false, true) | 'R' => some (0x13, false, true)
    | 'S' => some (0x1F, false, true) | 'T' => some (0x14, false, true)
    | 'U' => some (0x16, false, true) | 'V' => some (0x2F, false, true)
    | 'W' => some (0x11, false, true) | 'X' => some (0x2D, false, true)
    | 'Y' => some (0x15, false, true) | 'Z' => some (0x2C, false, true)
    | '1' => some (0x02, false, false) | '2' => some (0x03, false, false)
    | '3' => some (0x04, false, false) | '4' => some (0x05, false, false)
    | '5' => some (0x06, false, false) | '6' => some (0x07, false, false)
    | '7' => some (0x08, false, false) | '8' => some (0x09, false, false)
    | '9' => some (0x0A, false, false) | '0' => some (0x0B, false, false)
    | '-' => some (0x0C, false, false) | '^' => some (0x0D, false, false)
    | '\\' => some (0x7D, false, false) | '¥' => some (0x7D, false, false)
    | '￥' => some (0x7D, false, false)
    | '@' => some (0x1A, false, false) | '[' => some (0x1B, false, false)
    | ';' => some (0x27, false, false) | ':' => some (0x28, false, false)
    | ']' => some (0x2B, false, false) | ',' => some (0x33, false, false)
    | '.' => some (0x34, false, false) | '/' => some (0x35, false, false)
    | '_' => some (0x73, false, true)
    | '!' => some (0x02, false, true) | '"' => some (0x03, false, true)
    | '#' => some (0x04, false, true) | '$' => some (0x05, false, true)
    | '%' => some (0x06, false, true) | '&' => some (0x07, false, true)
    | '\'' => some (0x08, false, true) | '(' => some (0x09, false, true)
    | ')' => some (0x0A, false, true)
    | '=' => some (0x0C, false, true) | '~' => some (0x0D, false, true)
    | '|' => some (0x7D, false, true) | '`' => some (0x1A, false, true)
    | '\x7b' => some (0x1B, false, true)
    | '+' => some (0x27, false, true) | '*' => some (0x28, false, true)
    | '\x7d' => some (0x2B, false, true)
    | '<' => some (0x33, false, true) | '>' => some (0x34, false, true)
    | '?' => some (0x35, false, true)
    | ' ' => some (0x39, false, false)
    | '\x08' => some (0x0E, false, false)
    | '\x0d' => some (0x1C, false, false)
    | '\uF702' => some (0x4B, true, false)
    | '\uF703' => some (0x4D, true, false)
    | '－' => some (0x0C, false, false) | 'ー' => some (0x0C, false, false)
    | _ => none

/-- engine.rs modifier_scancodes. -/
def modifierScancodes (mods : Modifiers) : List (Nat × Bool) :=
  (if mods.ctrl then [(0x1D, false)] else []) ++
  (if mods.shift then [(0x2A, false)] else []) ++
  (if mods.alt then [(0x38, false)] else []) ++
  (if mods.win then [(0x5B, true)] else [])

/-- engine.rs append_keystroke_events, returning the appended events.
The Rust match does not cover the KeySpec DirectString variant; it is
rendered as an unresolvable key (no scancode, no unicode fallback). -/
def keystrokeEvents (env : ExtEnv) (stroke : KeyStroke)
    (shift_held allow_unicode_fallback is_japanese : Bool) : List InputEvent :=
  match stroke.key with
  | KeySpec.ImeOn => [InputEvent.ImeControl true]
  | KeySpec.ImeOff => [InputEvent.ImeControl false]
  | k =>
    let key_events : Option (Nat × Bool × Bool) :=
      match k with
      | KeySpec.Scancode sc ext => some (sc, ext, false)
      | KeySpec.VirtualKey vk => (env.vk_to_sc vk).map (fun p => (p.1, p.2, false))
      | KeySpec.Char c => charToScancode c is_japanese
      | _ => none
    match key_events with
    | some (sc, ext, needs_shift) =>
      let mods := stroke.mods
      let mods := if needs_shift then { mods with shift := true } else mods
      let mods := if mods.shift && shift_held then { mods with shift := false } else mods
      let mods_evs := modifierScancodes mods
      (mods_evs.map (fun p => InputEvent.Scancode p.1 p.2 false)) ++
      [InputEvent.Scancode sc ext false, InputEvent.Scancode sc ext true] ++
      (mods_evs.reverse.map (fun p => InputEvent.Scancode p.1 p.2 true))
    | none =>
      if allow_unicode_fallback then
        match k with
        | KeySpec.Char c => [InputEvent.Unicode c false, InputEvent.Unicode c true]
        | _ => []
      else []

/-- Engine::token_to_events. -/
def tokenToEvents (env : ExtEnv) (pr : Profile) (token : Token) (shift_held : Bool) :
    Option (List InputEvent) :=
  let is_japanese := isJapaneseInputActive env pr.ime_mode
  match token with
  | Token.None => none
  | Token.KeySequence seq =>
    let events := seq.foldl
      (fun acc stroke => acc ++ keystrokeEvents env stroke shift_held false is_japanese) []
    if events.isEmpty then none else some events
  | Token.ImeChar text =>
    let events := text.toList.foldl
      (fun acc c => acc ++ [InputEvent.Unicode c false, InputEvent.Unicode c true]) []
    if events.isEmpty then none else some events
  | Token.DirectChar text =>
    let toggled_ime := is_japanese &&
      (match env.ime_open with
       | some ime_on => ime_on
       | none => false)
    let mid := text.toList.foldl
      (fun acc c => acc ++ [InputEvent.Unicode c false, InputEvent.Unicode c true]) []
    let events := (if toggled_ime then [InputEvent.ImeControl false] else []) ++ mid ++
      (if toggled_ime then [InputEvent.ImeControl true] else [])
    if events.isEmpty then none else some events

/-- Engine::is_thumb_key. -/
def isThumbKey (e : Engine) (key : ScKey) : Bool :=
  match e.chord_engine.profile.thumb_keys with
  | some tk =>
    tk.left.contains key || tk.right.contains key ||
      tk.ext1.contains key || tk.ext2.contains key
  | none => false

/-- Engine::is_active_thumb_key. -/
def isActiveThumbKey (e : Engine) (key : ScKey) : Bool :=
  e.chord_engine.state.pressed.contains key &&
    e.chord_engine.state.pending.any (fun p => p.key == key)

/-- Engine::is_char_shift_key. -/
def isCharShiftKey (e : Engine) (key : ScKey) : Bool :=
  e.chord_engine.profile.trigger_keys.any (fun p => p.1 == key)

/-- Engine::is_repeat_event. -/
def isRepeatEvent (e : Engine) (key : ScKey) : Bool :=
  e.chord_engine.state.pressed.contains key

/-- Engine::repeat_allowed_for_token. -/
def isCharacterAssignment (token : Token) : Bool :=
  match token with
  | Token.ImeChar _ => true
  | Token.DirectChar _ => true
  | Token.KeySequence seq =>
    !seq.isEmpty && seq.all (fun stroke =>
      stroke.mods.is_empty &&
        (match stroke.key with
         | KeySpec.Char _ => true
         | _ => false))
  | Token.None => false

def repeatAllowedForToken (pr : Profile) (token : Option Token) : Bool :=
  match token with
  | some t => if isCharacterAssignment t then pr.char_key_repeat_assigned
              else pr.char_key_repeat_unassigned
  | none => pr.char_key_repeat_unassigned

/-- Engine::pending_overlap_ratio (the repeat planner's ratio; f64
quotient modelled as mkRat). -/
def pendingOverlapRatio (p1 p2 : PendingKey) (now : Nat) : ℚ :=
  let p1_end := p1.t_up.getD now
  let p2_end := p2.t_up.getD now
  if p2_end ≤ p2.t_down then 0
  else
    let overlap_start := p2.t_down
    let overlap_end := min p1_end p2_end
    let overlap_dur : Nat := overlap_end - overlap_start
    let p2_dur := p2_end - p2.t_down
    if p2_dur == 0 then 0 else mkRat overlap_dur p2_dur

/-- Engine::detect_repeat_chord. -/
def detectRepeatChord (e : Engine) (key : ScKey) (now : Nat) :
    Option (List ScKey) :=
  let pending := e.chord_engine.state.pending
  if pending.length < 2 then none
  else
    match pending.find? (fun p => p.key == key) with
    | none => none
    | some primary =>
      let threshold := e.chord_engine.profile.char_key_overlap_ratio
      let best := pending.foldl
        (fun (acc : ℚ × Option ScKey) other =>
          if other.key == key then acc
          else
            let pair := if primary.t_down ≤ other.t_down then (primary, other)
                        else (other, primary)
            let ratio := pendingOverlapRatio pair.1 pair.2 now
            if threshold ≤ ratio && (acc.2.isNone || acc.1 < ratio) then
              (ratio, some other.key)
            else acc)
        (0, none)
      best.2.map (fun other_key => [key, other_key])

/-- Engine::repeat_single_keys. -/
def repeatSingleKeys (e : Engine) (key : ScKey) : List ScKey :=
  if isThumbKey e key then [key]
  else
    match e.chord_engine.profile.thumb_keys with
    | none => [key]
    | some tk =>
      let l := tk.left.find? (fun k => isActiveThumbKey e k)
      let r := tk.right.find? (fun k => isActiveThumbKey e k)
      let x1 := tk.ext1.find? (fun k => isActiveThumbKey e k)
      let x2 := tk.ext2.find? (fun k => isActiveThumbKey e k)
      match l.or (r.or (x1.or x2)) with
      | some k => [key, k]
      | none => [key]

/-- Engine::compute_repeat_plan. -/
def computeRepeatPlan (e : Engine) (key : ScKey) (now : Nat) :
    List ScKey × Bool :=
  let r : List ScKey × Bool :=
    match detectRepeatChord e key now with
    | some chord_keys => (chord_keys, true)
    | none => (repeatSingleKeys e key, false)
  if r.1.isEmpty then (r.1 ++ [key], r.2) else r

/-- Engine::consume_pending_for_repeat. -/
def consumePendingForRepeat (e : Engine) (keys : List ScKey) : Engine :=
  if keys.length < 2 then e
  else
    let st := e.chord_engine.state
    let r := st.pending.foldl
      (fun (acc : List PendingKey × List (ScKey × Nat)) p =>
        if keys.contains p.key then
          (acc.1, if st.pressed.contains p.key then acc.2 else mapRemove acc.2 p.key)
        else (acc.1 ++ [p], acc.2))
      ([], st.down_ts)
    { e with chord_engine :=
      { e.chord_engine with state := { st with pending := r.1, down_ts := r.2 } } }

/-- Engine::repeat_fallback_events. -/
def repeatFallbackEvents (env : ExtEnv) (e : Engine) (keys : List ScKey)
    (shift is_japanese : Bool) : List InputEvent :=
  keys.foldl
    (fun acc k =>
      match resolve e [k] shift is_japanese with
      | some token =>
        (match tokenToEvents env e.chord_engine.profile token shift with
         | some ops => acc ++ ops
         | none => acc ++ [InputEvent.Scancode k.sc k.ext false,
                           InputEvent.Scancode k.sc k.ext true])
      | none => acc ++ [InputEvent.Scancode k.sc k.ext false,
                        InputEvent.Scancode k.sc k.ext true])
    []

/-- Lookup of a repeat plan (HashMap get on repeat_plans). -/
def repeatPlansGet (plans : List (ScKey × List ScKey)) (key : ScKey) :
    Option (List ScKey) :=
  (plans.find? (fun p => p.1 == key)).map (fun p => p.2)

/-- Engine::handle_repeat_event. -/
def handleRepeatEvent (env : ExtEnv) (now : Nat) (e : Engine) (key : ScKey)
    (shift is_japanese : Bool) : Engine × KeyAction :=
  let plan : List ScKey × Bool :=
    match repeatPlansGet e.repeat_plans key with
    | some keys => (keys, false)
    | none => computeRepeatPlan e key now
  let keys := plan.1
  let consume_pending := plan.2
  let token := resolve e keys shift is_japanese
  let allow_repeat := repeatAllowedForToken e.chord_engine.profile token
  if !allow_repeat then (e, KeyAction.Block)
  else
    let events :=
      match token with
      | some t =>
        (match tokenToEvents env e.chord_engine.profile t shift with
         | some evs => evs
         | none => repeatFallbackEvents env e keys shift is_japanese)
      | none => repeatFallbackEvents env e keys shift is_japanese
    if events.isEmpty then (e, KeyAction.Block)
    else
      let e1 := if consume_pending then consumePendingForRepeat e keys else e
      let e2 :=
        if (repeatPlansGet e1.repeat_plans key).isSome then e1
        else { e1 with repeat_plans := e1.repeat_plans ++ [(key, keys)] }
      (e2, KeyAction.Inject events)

/-- Engine::remove_keys_from_pending. -/
def removeKeysFromPending (e : Engine) (remove : List ScKey)
    (clear_down_ts : Bool) : Engine :=
  if remove.isEmpty then e
  else
    let st := e.chord_engine.state
    let r := st.pending.foldl
      (fun (acc : List PendingKey × List (ScKey × Nat)) p =>
        if remove.contains p.key then
          (acc.1,
            if clear_down_ts || !st.pressed.contains p.key then mapRemove acc.2 p.key
            else acc.2)
        else (acc.1 ++ [p], acc.2))
      ([], st.down_ts)
    { e with chord_engine :=
      { e.chord_engine with state := { st with pending := r.1, down_ts := r.2 } } }

/-- Set t_up to none on the first pending record of the key
(iter_mut().find in ensure_pending_key). -/
def clearTUpFirst : List PendingKey → ScKey → List PendingKey
  | [], _ => []
  | p :: ps, k =>
    if p.key == k then { p with t_up := none } :: ps
    else p :: clearTUpFirst ps k

/-- Engine::ensure_pending_key (the Instant::now fallback is the event
timestamp). -/
def ensurePendingKey (now : Nat) (e : Engine) (key : ScKey) : Engine :=
  let st := e.chord_engine.state
  if st.pending.any (fun p => p.key == key) then
    { e with chord_engine :=
      { e.chord_engine with state :=
        { st with pending := clearTUpFirst st.pending key } } }
  else
    let t_down := (List.lookup key st.down_ts).getD now
    { e with chord_engine :=
      { e.chord_engine with state :=
        { st with pending := st.pending ++ [⟨key, t_down, none⟩] } } }

/-- Engine::consume_non_modifier_keys. -/
def consumeNonModifierKeys (now : Nat) (e : Engine) (keys : List ScKey)
    (keep : ScKey) : Engine :=
  let continuous := e.chord_engine.profile.char_key_continuous
  let r := keys.foldl
    (fun (acc : Engine × List ScKey) k =>
      if k == keep then acc
      else
        let is_thumb := isThumbKey acc.1 k
        if continuous && !is_thumb && acc.1.chord_engine.state.pressed.contains k then
          let e2 := { acc.1 with
            pending_nonshift_for_shift := insertSet acc.1.pending_nonshift_for_shift k }
          (ensurePendingKey now e2 k, acc.2)
        else (acc.1, acc.2 ++ [k]))
    (e, [])
  let e1 := r.1
  let remove := r.2
  if remove.isEmpty then e1
  else
    let st := e1.chord_engine.state
    let e2 := { e1 with chord_engine :=
      { e1.chord_engine with state :=
        { st with used_modifiers :=
            st.used_modifiers.filter (fun k => !remove.contains k) } } }
    removeKeysFromPending e2 remove false

/-- Engine::deferred_key_can_form_chord_with. -/
def deferredKeyCanFormChordWith (e : Engine) (deferred_key next_key : ScKey)
    (shift is_japanese : Bool) : Bool :=
  let r := resolveWithModifier e [deferred_key, next_key] shift is_japanese
  r.1.isSome && r.2.isSome

/-- Engine::handle_deferred_nonshift_before_event. -/
def handleDeferredNonshiftBeforeEvent (e : Engine) (key : ScKey)
    (up shift is_japanese : Bool) : Engine :=
  if e.pending_nonshift_for_shift.isEmpty then e
  else if up then
    if e.pending_nonshift_for_shift.contains key then
      let e1 := { e with
        pending_nonshift_for_shift := removeSet e.pending_nonshift_for_shift key }
      removeKeysFromPending e1 [key] true
    else e
  else
    let deferred_keys := e.pending_nonshift_for_shift
    let has_valid_chord := deferred_keys.any (fun k =>
      e.chord_engine.state.pressed.contains k &&
        deferredKeyCanFormChordWith e k key shift is_japanese)
    if has_valid_chord then e
    else
      let remove := e.pending_nonshift_for_shift
      removeKeysFromPending { e with pending_nonshift_for_shift := [] } remove true

/-- Engine::is_enter_key. -/
def isEnterKey (key : ScKey) : Bool := key.sc == 0x1C

/-- Engine::latest_pressed_managed_key_except. Rust max_by_key keeps the
last maximum in iteration order. -/
def latestPressedManagedKeyExcept (e : Engine) (excluded : ScKey) :
    Option ScKey :=
  let candidates := e.chord_engine.state.down_ts.filter
    (fun p => !(p.1 == excluded) && e.chord_engine.state.pressed.contains p.1)
  (candidates.foldl
    (fun (best : Option (ScKey × Nat)) p =>
      match best with
      | none => some p
      | some b => if b.2 ≤ p.2 then some p else some b)
    none).map (fun p => p.1)

/-- Engine::start_deferred_enter_rollover; some = state mutated and the
event blocked. -/
def startDeferredEnterRollover (e : Engine) (source_key key : ScKey)
    (pass_through : PassThroughCurrent) (up : Bool) : Option Engine :=
  if up || !isEnterKey key || e.deferred_enter_rollover.isSome then none
  else
    match latestPressedManagedKeyExcept e key with
    | none => none
    | some wait_for =>
      some { e with
        deferred_enter_rollover := some ⟨source_key, pass_through, wait_for, false, false⟩ }

/-- Engine::handle_deferred_enter_event. -/
def handleDeferredEnterEvent (e : Engine) (source_key key : ScKey) (up : Bool) :
    Option (Engine × KeyAction) :=
  if !isEnterKey key then none
  else
    match e.deferred_enter_rollover with
    | none => none
    | some deferred =>
      if !(deferred.source_key == source_key) then none
      else if up then
        if deferred.down_emitted then
          let e1 := { e with deferred_enter_rollover := none }
          match passthroughEvent deferred.pass_through deferred.source_key true with
          | some event => some (e1, KeyAction.Inject [event])
          | none => some (e1, KeyAction.Block)
        else
          some ({ e with
              deferred_enter_rollover := some { deferred with up_seen_while_waiting := true } },
            KeyAction.Block)
      else some (e, KeyAction.Block)

/-- Engine::release_deferred_enter_on_wait_key_up. -/
def releaseDeferredEnterOnWaitKeyUp (e : Engine) (key : ScKey) :
    Engine × List InputEvent :=
  match e.deferred_enter_rollover with
  | none => (e, [])
  | some deferred =>
    if deferred.down_emitted || !(deferred.wait_for == key) then (e, [])
    else
      let evs1 :=
        match passthroughEvent deferred.pass_through deferred.source_key false with
        | some event => [event]
        | none => []
      if deferred.up_seen_while_waiting then
        let evs2 :=
          match passthroughEvent deferred.pass_through deferred.source_key true with
          | some event => [event]
          | none => []
        ({ e with deferred_enter_rollover := none }, evs1 ++ evs2)
      else
        ({ e with
            deferred_enter_rollover := some { deferred with down_emitted := true } }, evs1)

/-- The thumb-state marking loop of process_key's section pre-check:
flags accumulated over pressed keys plus the prefix-pending thumb. -/
def thumbStateMarks (tk : ThumbKeys) (st : ChordState) :
    Bool × Bool × Bool × Bool :=
  let ks := st.pressed ++
    (match st.prefix_pending with
     | some k => [k]
     | none => [])
  (ks.any tk.left.contains, ks.any tk.right.contains,
    ks.any tk.ext1.contains, ks.any tk.ext2.contains)

/-- The section-existence pre-check block of Engine::process_key
(lines 366-519). some = short-circuit with the given engine and action. -/
def sectionPrecheck (e : Engine) (layout : Layout) (source_key key : ScKey)
    (pass_through_current : PassThroughCurrent) (up is_japanese shift : Bool) :
    Option (Engine × KeyAction) :=
  let flags :=
    match e.chord_engine.profile.thumb_keys with
    | some tk => thumbStateMarks tk e.chord_engine.state
    | none => (false, false, false, false)
  let tl := flags.1
  let tr := flags.2.1
  let te1 := flags.2.2.1
  let te2 := flags.2.2.2
  let section_name := sectionNameFor is_japanese shift tl tr te1 te2
  let st := e.chord_engine.state
  let is_space := key.sc == 0x39
  let key_is_managed := st.pressed.contains key ||
    st.down_ts.any (fun p => p.1 == key) || st.pending.any (fun p => p.key == key)
  let is_thumb :=
    match e.chord_engine.profile.thumb_keys with
    | some tk =>
      tk.left.contains key || tk.right.contains key ||
        tk.ext1.contains key || tk.ext2.contains key
    | none => false
  match sectionsGet layout.sections section_name with
  | some sec =>
    let is_defined :=
      (match keyToRc key with
       | some rc =>
         (match planeGet sec.base_plane rc with
          | some token => !(token == Token.None)
          | none => false)
       | none => false) ||
      (match scToKeyName key.sc with
       | some name => (subPlanesGet sec.sub_planes ("<" ++ name ++ ">")).isSome
       | none => false)
    if !is_defined && !is_thumb && !is_space && !(up && key_is_managed) then
      match startDeferredEnterRollover e source_key key pass_through_current up with
      | some e1 => some (e1, KeyAction.Block)
      | none => some (e, passthroughAction pass_through_current up)
    else none
  | none =>
    if !is_thumb && !is_space && !(up && key_is_managed) then
      match startDeferredEnterRollover e source_key key pass_through_current up with
      | some e1 => some (e1, KeyAction.Block)
      | none => some (e, passthroughAction pass_through_current up)
    else none

/-- Accumulator of the decision loop in Engine::process_key. -/
structure DecisionAcc where
  eng : Engine
  inject_ops : List InputEvent
  pass_current : Bool

/-- Emit a key as its single-key resolution or as a raw scancode pair
(the resolved-or-fallback idiom of the chord fallback branches). -/
def singleKeyOrScancode (env : ExtEnv) (e : Engine) (k : ScKey)
    (shift is_japanese : Bool) : List InputEvent :=
  match resolve e [k] shift is_japanese with
  | some token =>
    (match tokenToEvents env e.chord_engine.profile token shift with
     | some ops => ops
     | none => [InputEvent.Scancode k.sc k.ext false, InputEvent.Scancode k.sc k.ext true])
  | none => [InputEvent.Scancode k.sc k.ext false, InputEvent.Scancode k.sc k.ext true]

/-- One iteration of the decision loop in Engine::process_key. -/
def processDecision (env : ExtEnv) (now : Nat) (key : ScKey)
    (shift is_japanese : Bool) (acc : DecisionAcc) (d : Decision) : DecisionAcc :=
  match d with
  | Decision.Passthrough k _ =>
    if k == key then { acc with pass_current := true } else acc
  | Decision.KeyTap k =>
    if (repeatPlansGet acc.eng.repeat_plans k).isSome then acc
    else
      (match resolve acc.eng [k] shift is_japanese with
       | some token =>
         (match tokenToEvents env acc.eng.chord_engine.profile token shift with
          | some ops => { acc with inject_ops := acc.inject_ops ++ ops }
          | none => acc)
       | none =>
         { acc with inject_ops := acc.inject_ops ++
             [InputEvent.Scancode k.sc k.ext false, InputEvent.Scancode k.sc k.ext true] })
  | Decision.Chord keys =>
    (match resolveWithModifier acc.eng keys shift is_japanese with
     | (some token, modifier) =>
       let acc1 :=
         match tokenToEvents env acc.eng.chord_engine.profile token shift with
         | some ops => { acc with inject_ops := acc.inject_ops ++ ops }
         | none => acc
       (match modifier with
        | some mod_key =>
          { acc1 with eng := consumeNonModifierKeys now acc1.eng keys mod_key }
        | none => acc1)
     | (none, _) =>
       let pr := acc.eng.chord_engine.profile
       let st := acc.eng.chord_engine.state
       let undefined_rollover_pair := pr.char_key_continuous && keys.length == 2
       let older_pressed := undefined_rollover_pair &&
         st.pressed.contains (keys.getD 0 default)
       let newer_pressed := undefined_rollover_pair &&
         st.pressed.contains (keys.getD 1 default)
       let older_is_continuous_used_modifier := undefined_rollover_pair &&
         isCharShiftKey acc.eng (keys.getD 0 default) &&
         st.used_modifiers.contains (keys.getD 0 default)
       if undefined_rollover_pair && older_pressed && !newer_pressed then
         let k := keys.getD 1 default
         let e1 := { acc.eng with chord_engine :=
           { acc.eng.chord_engine with state :=
             { st with used_modifiers := removeSet st.used_modifiers k } } }
         { acc with
           eng := e1
           inject_ops := acc.inject_ops ++ singleKeyOrScancode env e1 k shift is_japanese }
       else if undefined_rollover_pair && !older_pressed && newer_pressed then
         let k := keys.getD 1 default
         { acc with eng := { acc.eng with chord_engine :=
           { acc.eng.chord_engine with state :=
             { st with used_modifiers := removeSet st.used_modifiers k } } } }
       else if undefined_rollover_pair && !older_pressed && !newer_pressed &&
           older_is_continuous_used_modifier then
         let k := keys.getD 1 default
         { acc with inject_ops := acc.inject_ops ++
             singleKeyOrScancode env acc.eng k shift is_japanese }
       else
         { acc with inject_ops := acc.inject_ops ++
             keys.foldl (fun ops k =>
               ops ++ singleKeyOrScancode env acc.eng k shift is_japanese) [] })
  | Decision.LatchOn _ => acc
  | Decision.LatchOff => acc

/-- Engine::process_key. now is the instant sampled during the call. -/
def processKey (env : ExtEnv) (now : Nat) (e : Engine) (sc : Nat) (ext : Bool)
    (up shift : Bool) : Engine × KeyAction :=
  if !e.enabled then (e, KeyAction.Pass)
  else
    let is_japanese := isJapaneseInputActive env e.chord_engine.profile.ime_mode
    match e.layout with
    | none => (e, KeyAction.Pass)
    | some layout =>
      let source_key := ScKey.new sc ext
      let remap := remapInputKey e source_key
      let key := remap.1
      let pass_through_current := remap.2.1
      match remap.2.2 with
      | some pseudo => (e, emitPseudoFunctionKey pseudo up)
      | none =>
        match handleDeferredEnterEvent e source_key key up with
        | some r => r
        | none =>
          if !up && isRepeatEvent e key then
            handleRepeatEvent env now e key shift is_japanese
          else
            let e1 := handleDeferredNonshiftBeforeEvent e key up shift is_japanese
            match sectionPrecheck e1 layout source_key key pass_through_current
                up is_japanese shift with
            | some r => r
            | none =>
              let ev : KeyEvent :=
                ⟨key, if up then KeyEdge.Up else KeyEdge.Down, false, now⟩
              let r := onEvent e1.chord_engine ev
              let e2 := { e1 with chord_engine := r.1 }
              let acc := r.2.foldl (processDecision env now key shift is_japanese)
                ⟨e2, [], false⟩
              let post :=
                if up then
                  let rel := releaseDeferredEnterOnWaitKeyUp acc.eng key
                  ({ rel.1 with repeat_plans :=
                      rel.1.repeat_plans.filter (fun p => !(p.1 == key)) }, rel.2)
                else (acc.eng, [])
              let e3 := post.1
              let inject_ops := acc.inject_ops ++ post.2
              if !inject_ops.isEmpty then
                let ops :=
                  if acc.pass_current then
                    inject_ops ++
                      (match passthroughEvent pass_through_current source_key up with
                       | some ev2 => [ev2]
                       | none => [])
                  else inject_ops
                (e3, KeyAction.Inject ops)
              else if acc.pass_current then
                (e3, passthroughAction pass_through_current up)
              else (e3, KeyAction.Block)

end Kikyo

namespace Kikyo

/-! Concrete scenario data and statement-support definitions. -/

/-- Scancode of the A key on the ASDF row. -/
def keyA : ScKey := ⟨0x1E, false⟩

/-- Scancode of the B key on the ZXCV row. -/
def keyB : ScKey := ⟨0x30, false⟩

/-- Scancode of the Muhenkan thumb key. -/
def keyMu : ScKey := ⟨0x7B, false⟩

/-- A physical (non-injected) event at a millisecond timestamp. -/
def evAt (k : ScKey) (e : KeyEdge) (t : Nat) : KeyEvent := ⟨k, e, false, t⟩

/-- Default profile with only the overlap threshold replaced. -/
def profWithRatio (threshold : ℚ) : Profile :=
  { Profile.default with char_key_overlap_ratio := threshold }

/-- The C1 event sequence: A down at 0, B down at 50, A up at 100,
B up at 150. -/
def eventsC1 : List KeyEvent :=
  [evAt keyA KeyEdge.Down 0, evAt keyB KeyEdge.Down 50,
   evAt keyA KeyEdge.Up 100, evAt keyB KeyEdge.Up 150]

/-- The default profile with an arbitrary chord window, written as a
full literal so the window field stays symbolic. -/
def profWithWindow (w : Nat) : Profile where
  chord_style := ChordStyle.TriggerKey
  chord_window_ms := w
  max_chord_size := 2
  adaptive_window := ⟨false⟩
  thumb_keys := none
  trigger_keys := []
  target_keys := none
  successive := ⟨false⟩
  char_key_repeat_assigned := false
  char_key_repeat_unassigned := true
  ime_mode := ImeMode.Auto
  suspend_key := SuspendKey.None
  thumb_left := ⟨ThumbKeySelect.Muhenkan, false, ThumbShiftSinglePress.None, false⟩
  thumb_right := ⟨ThumbKeySelect.Henkan, false, ThumbShiftSinglePress.None, false⟩
  extended_thumb1 := ⟨ThumbKeySelect.Extended1, false, ThumbShiftSinglePress.None, false⟩
  extended_thumb2 := ⟨ThumbKeySelect.Extended2, false, ThumbShiftSinglePress.None, false⟩
  thumb_shift_overlap_ratio := mkRat 35 100
  char_key_continuous := false
  char_key_overlap_ratio := mkRat 35 100

/-- Whether the chord engine target filter lets a key through: member of
the whitelist, or no whitelist configured. -/
def isTargetKeyB (pr : Profile) (k : ScKey) : Bool :=
  match pr.target_keys with
  | some targets => targets.contains k
  | none => true

/-- The pending record at an index (getD with the default record). -/
def pendAt (l : List PendingKey) (i : Nat) : PendingKey := l.getD i default

/-- Strict t_down-then-insertion-order comparison of two pending
indices. -/
def RlexP (pending : List PendingKey) (i j : Nat) : Prop :=
  (pendAt pending i).t_down < (pendAt pending j).t_down ∨
    ((pendAt pending i).t_down = (pendAt pending j).t_down ∧ i < j)

/-- A decision is a chord of two records taken at positions that occur
in this order inside the ordered index list. -/
def chordFromOrdered (pending : List PendingKey) (ordered : List Nat)
    (d : Decision) : Prop :=
  ∀ ks, d = Decision.Chord ks →
    ∃ i j, List.Sublist [i, j] ordered ∧
      ks = [(pendAt pending i).key, (pendAt pending j).key]

/-- Engine state at the moment of the C1 B-up: A and B both pending
with their release times recorded. -/
def engC4 : ChordEngine :=
  ⟨{ Profile.default with char_key_overlap_ratio := mkRat 35 100 },
   { ChordState.default with
      pending := [⟨keyA, 0, some 100⟩, ⟨keyB, 50, some 150⟩] }⟩

/-- Modelled from the spec: the character-assignment predicate exactly
as the specification sentence words it, with a length-1 KeyStroke list
whose single stroke is a plain char with no modifiers. Stated for
comparison with isCharacterAssignment, which the code defines over any
non-empty all-plain-char stroke list. -/
def isCharacterAssignmentSpecLen1 (token : Token) : Bool :=
  match token with
  | Token.ImeChar _ => true
  | Token.DirectChar _ => true
  | Token.KeySequence seq =>
    (seq.length == 1) &&
      seq.all (fun stroke =>
        stroke.mods.is_empty &&
          (match stroke.key with
           | KeySpec.Char _ => true
           | _ => false))
  | Token.None => false

/-- Modelled from the spec: the repeat policy of the claim, built on the
length-1 character-assignment predicate. -/
def repeatAllowedSpecLen1 (pr : Profile) (token : Option Token) : Bool :=
  match token with
  | some t => if isCharacterAssignmentSpecLen1 t then pr.char_key_repeat_assigned
              else pr.char_key_repeat_unassigned
  | none => pr.char_key_repeat_unassigned

/-- Character-assignment predicate of the amended claim: a non-empty
KeyStroke list whose strokes are all plain chars with no modifiers. -/
def isCharacterAssignmentAmended (token : Token) : Bool :=
  match token with
  | Token.ImeChar _ => true
  | Token.DirectChar _ => true
  | Token.KeySequence seq =>
    (seq.length != 0) &&
      seq.all (fun stroke =>
        stroke.mods.is_empty &&
          (match stroke.key with
           | KeySpec.Char _ => true
           | _ => false))
  | Token.None => false

/-- A two-stroke all-plain-char token such as a kana expanded to two
romaji key presses. -/
def tokenTwoPlainChars : Token :=
  Token.KeySequence [⟨KeySpec.Char 'n', Modifiers.none⟩, ⟨KeySpec.Char 'i', Modifiers.none⟩]

/-- Repeat flags: assigned repeats off, unassigned repeats on. -/
def profC8 : Profile :=
  { Profile.default with
    char_key_repeat_assigned := false
    char_key_repeat_unassigned := true }

/-- Oracle with no Japanese input, unknown IME open state and no
virtual-key translation. -/
def envC6 : ExtEnv := ⟨false, none, fun _ => none⟩

/-- A one-section layout mapping the A position to the letter n. -/
def secC6 : Section :=
  ⟨"英数シフト無し",
    ⟨[(Rc.new 2 0, Token.KeySequence [⟨KeySpec.Char 'n', Modifiers.none⟩])]⟩, []⟩

def layoutC6 : Layout := ⟨none, [("英数シフト無し", secC6)], [], 2⟩

/-- Profile whose target whitelist holds only the A key, pinned to
alphanumeric mode so the oracle is irrelevant. -/
def profC6 : Profile :=
  { Profile.default with
    target_keys := some [keyA]
    ime_mode := ImeMode.ForceAlpha }

/-- Freshly initialised engine with the one-section layout loaded. -/
def engineC6 : Engine :=
  ⟨ChordEngine.new profC6, true, some layoutC6, false, [], [], [], none⟩

/-- The engine after pressing A: A is held and pending. -/
def engineC6Held : Engine := (processKey envC6 0 engineC6 0x1E false false false).1

/-- Profile with Muhenkan as left thumb key and single-press Enable. -/
def profC7 : Profile :=
  { Profile.default with
    thumb_keys := some ⟨[keyMu], [⟨0x79, false⟩], [], []⟩
    thumb_left := ⟨ThumbKeySelect.Muhenkan, false, ThumbShiftSinglePress.Enable, false⟩ }

/-- Chord engine holding a lonely pending Muhenkan press. -/
def engC7 : ChordEngine :=
  ⟨profC7,
   { ChordState.default with
      pending := [⟨keyMu, 0, none⟩]
      pressed := [keyMu] }⟩

/-- Chord engine with a pending A press, for the Space-flush witness. -/
def engC3 : ChordEngine :=
  ⟨Profile.default,
   { ChordState.default with
      pending := [⟨keyA, 0, none⟩]
      pressed := [keyA] }⟩

/-- Enabled engine with a registered enabled-change callback. -/
def engC9 : Engine :=
  ⟨ChordEngine.new Profile.default, true, none, true, [], [], [], none⟩

end Kikyo

namespace Kikyo

/-! Helper lemmas about the container and sorting primitives. -/

theorem mem_insertSet (s : List ScKey) (k : ScKey) : k ∈ insertSet s k := by
  by_cases h : s.contains k = true <;> simp_all [insertSet]

theorem mem_insertStable (le : Nat → Nat → Bool) (a x : Nat) :
    ∀ l : List Nat, (x ∈ insertStable le a l ↔ x = a ∨ x ∈ l) := by
  intro l
  induction l with
  | nil => simp [insertStable]
  | cons b bs ih =>
    by_cases h : le b a <;> simp [insertStable, h, ih]
    all_goals tauto

theorem RlexP_le {pending : List PendingKey} {i j : Nat} (h : RlexP pending i j) :
    (pendAt pending i).t_down ≤ (pendAt pending j).t_down := by
  rcases h with h | ⟨h, _⟩
  · exact Nat.le_of_lt h
  · exact Nat.le_of_eq h

theorem tDownLe_true {pending : List PendingKey} {a b : Nat}
    (h : tDownLe pending a b = true) :
    (pendAt pending a).t_down ≤ (pendAt pending b).t_down := by
  unfold tDownLe at h
  exact of_decide_eq_true h

theorem tDownLe_false {pending : List PendingKey} {a b : Nat}
    (h : ¬(tDownLe pending a b = true)) :
    (pendAt pending b).t_down < (pendAt pending a).t_down := by
  unfold tDownLe at h
  exact Nat.lt_of_not_le (of_decide_eq_false (Bool.eq_false_iff.mpr h))

theorem pairwise_insertStable (pending : List PendingKey) (a : Nat) :
    ∀ l : List Nat, l.Pairwise (RlexP pending) → (∀ b ∈ l, b < a) →
    (insertStable (tDownLe pending) a l).Pairwise (RlexP pending) := by
  intro l
  induction l with
  | nil => simp [insertStable, RlexP]
  | cons b bs ih =>
    intro hl hidx
    rw [List.pairwise_cons] at hl
    obtain ⟨hb, hbs⟩ := hl
    by_cases hle : tDownLe pending b a = true
    · simp only [insertStable]
      rw [if_pos hle]
      rw [List.pairwise_cons]
      have hle2 := tDownLe_true hle
      constructor
      · intro c hc
        rcases (mem_insertStable (tDownLe pending) a c bs).mp hc with rfl | hc
        · rcases Nat.lt_or_ge (pendAt pending b).t_down (pendAt pending c).t_down with h | h
          · exact Or.inl h
          · exact Or.inr ⟨Nat.le_antisymm hle2 h, hidx b (List.mem_cons_self b bs)⟩
        · exact hb c hc
      · exact ih hbs (fun b2 hb2 => hidx b2 (List.mem_cons_of_mem b hb2))
    · have hab := tDownLe_false hle
      simp only [insertStable]
      rw [if_neg hle]
      rw [List.pairwise_cons]
      constructor
      · intro c hc
        rcases List.mem_cons.mp hc with rfl | hc
        · exact Or.inl hab
        · exact Or.inl (Nat.lt_of_lt_of_le hab (RlexP_le (hb c hc)))
      · rw [List.pairwise_cons]
        exact ⟨hb, hbs⟩

theorem mem_foldl_insertStable (le : Nat → Nat → Bool) (x : Nat) :
    ∀ (l acc : List Nat),
      (x ∈ List.foldl (fun acc2 a => insertStable le a acc2) acc l ↔
        x ∈ acc ∨ x ∈ l) := by
  intro l
  induction l with
  | nil => simp
  | cons a l' ih =>
    intro acc
    rw [List.foldl_cons, ih]
    rw [mem_insertStable]
    simp
    tauto

theorem mem_stableSortBy (le : Nat → Nat → Bool) (x : Nat) (l : List Nat) :
    x ∈ stableSortBy le l ↔ x ∈ l := by
  unfold stableSortBy
  rw [mem_foldl_insertStable]
  simp

theorem pairwise_foldl_insertStable (pending : List PendingKey) :
    ∀ (l acc : List Nat), acc.Pairwise (RlexP pending) →
      (∀ b ∈ acc, ∀ x ∈ l, b < x) → l.Pairwise (· < ·) →
      (List.foldl (fun acc2 a => insertStable (tDownLe pending) a acc2) acc l).Pairwise
        (RlexP pending) := by
  intro l
  induction l with
  | nil => intro acc h _ _; simpa
  | cons a l' ih =>
    intro acc hacc hcross hl
    rw [List.pairwise_cons] at hl
    rw [List.foldl_cons]
    apply ih
    · exact pairwise_insertStable pending a acc hacc
        (fun b hb => hcross b hb a (List.mem_cons_self a l'))
    · intro b hb x hx
      rcases (mem_insertStable (tDownLe pending) a b acc).mp hb with rfl | hb
      · exact hl.1 x hx
      · exact hcross b hb x (List.mem_cons_of_mem a hx)
    · exact hl.2

theorem pairwise_stableSortBy (pending : List PendingKey) (n : Nat) :
    (stableSortBy (tDownLe pending) (List.range n)).Pairwise (RlexP pending) := by
  unfold stableSortBy
  exact pairwise_foldl_insertStable pending (List.range n) []
    List.Pairwise.nil (by simp) (List.pairwise_lt_range n)

theorem chordInner_spec (pr : Profile) (pressed : List ScKey)
    (pending : List PendingKey) (now : Nat) (trigger : Option (ScKey × KeyEdge))
    (ordered : List Nat) (idx1 : Nat) :
    ∀ (rest : List Nat) (acc : ChordScan),
      (∀ d ∈ acc.out, chordFromOrdered pending ordered d) →
      (idx1 :: rest).Sublist ordered →
      ∀ d ∈ (chordInner pr pressed pending now trigger idx1 rest acc).out,
        chordFromOrdered pending ordered d := by
  intro rest
  induction rest with
  | nil =>
    intro acc hacc _ d hd
    rw [chordInner] at hd
    exact hacc d hd
  | cons idx2 rest2 ih =>
    intro acc hacc hsub d hd
    have hsub1 : (idx1 :: rest2).Sublist ordered :=
      (List.Sublist.cons₂ idx1 (List.sublist_cons_self idx2 rest2)).trans hsub
    have hpair : List.Sublist [idx1, idx2] ordered :=
      (List.Sublist.cons₂ idx1 (List.Sublist.cons₂ idx2 (List.nil_sublist rest2))).trans hsub
    have hnew : chordFromOrdered pending ordered
        (Decision.Chord [(pending.getD idx1 default).key, (pending.getD idx2 default).key]) := by
      intro ks hks
      injection hks with h
      exact ⟨idx1, idx2, hpair, h.symm⟩
    simp only [chordInner] at hd
    repeat' split at hd
    all_goals
      first
        | exact ih acc hacc hsub1 d hd
        | exact hacc d hd
        | (refine ih _ ?_ hsub1 d hd
           intro d2 hd2
           simp only [List.mem_append, List.mem_singleton] at hd2
           rcases hd2 with h | h
           · exact hacc d2 h
           · subst h
             exact hnew)
        | (simp only [List.mem_append, List.mem_singleton, List.append_nil] at hd
           first
             | exact hacc d hd
             | (rcases hd with h | h
                · exact hacc d h
                · subst h
                  first
                    | exact hnew
                    | (intro ks hks
                       exact absurd hks (by simp))))

theorem chordOuter_spec (pr : Profile) (pressed : List ScKey)
    (pending : List PendingKey) (now : Nat) (trigger : Option (ScKey × KeyEdge))
    (ordered : List Nat) :
    ∀ (l : List Nat) (acc : ChordScan),
      (∀ d ∈ acc.out, chordFromOrdered pending ordered d) →
      l.Sublist ordered →
      ∀ d ∈ (chordOuter pr pressed pending now trigger l acc).out,
        chordFromOrdered pending ordered d := by
  intro l
  induction l with
  | nil =>
    intro acc hacc _ d hd
    rw [chordOuter] at hd
    exact hacc d hd
  | cons idx1 rest ih =>
    intro acc hacc hsub d hd
    have hrest : rest.Sublist ordered :=
      (List.sublist_cons_self idx1 rest).trans hsub
    rw [chordOuter] at hd
    split at hd
    · exact ih acc hacc hrest d hd
    · exact ih _ (chordInner_spec pr pressed pending now trigger ordered idx1 rest acc
        hacc hsub) hrest d hd

theorem lookup_mem_keys {α β : Type} [DecidableEq α] (a : α) (b : β) :
    ∀ l : List (α × β), List.lookup a l = some b → a ∈ l.map Prod.fst := by
  intro l
  induction l with
  | nil => intro h; simp [List.lookup] at h
  | cons p rest ih =>
    intro h
    rw [List.lookup] at h
    by_cases hab : a == p.1
    · have h2 := eq_of_beq hab
      simp [h2]
    · simp [hab] at h
      exact List.mem_cons_of_mem _ (ih h)

theorem remapLoop_total_aux (swaps : List (ScKey × FunctionKeySwapTarget)) :
    ∀ (fuel : Nat) (visited : List ScKey) (current : ScKey) (changed : Bool),
    visited.Nodup → (∀ v ∈ visited, v ∈ swaps.map Prod.fst) →
    swaps.length + 1 ≤ fuel + visited.length →
    (remapLoop swaps fuel visited current changed).isSome = true := by
  intro fuel
  induction fuel with
  | zero =>
    intro visited current changed hnd hsub hlen
    exfalso
    have h1 : visited.toFinset.card = visited.length := List.toFinset_card_of_nodup hnd
    have h2 : visited.toFinset ⊆ (swaps.map Prod.fst).toFinset := by
      intro x hx
      rw [List.mem_toFinset] at hx ⊢
      exact hsub x hx
    have h3 : (swaps.map Prod.fst).toFinset.card ≤ (swaps.map Prod.fst).length :=
      List.toFinset_card_le _
    have h4 := Finset.card_le_card h2
    simp at h3
    omega
  | succ fuel ih =>
    intro visited current changed hnd hsub hlen
    rw [remapLoop]
    cases hlk : List.lookup current swaps with
    | none => rfl
    | some target =>
      by_cases hv : current ∈ visited
      · simp [hv]
      · have hv2 : visited.contains current = false := by simpa using hv
        simp only [hv2, Bool.false_eq_true, if_false]
        cases target with
        | Key next =>
          apply ih (current :: visited) next true
          · exact List.Nodup.cons hv hnd
          · intro v hv3
            rcases List.mem_cons.mp hv3 with h | h
            · exact h ▸ lookup_mem_keys current (FunctionKeySwapTarget.Key next) swaps hlk
            · exact hsub v h
          · simp
            omega
        | CapsLock => simp
        | KanaLock => simp

theorem remapInputKey_id (e : Engine) (k : ScKey)
    (h : List.lookup k e.function_key_swaps = none) :
    remapInputKey e k = (k, PassThroughCurrent.Original, none) := by
  simp [remapInputKey, remapLoop, h]

theorem handleDeferredEnterEvent_none (e : Engine) (s k : ScKey) (up : Bool)
    (h : e.deferred_enter_rollover = none) :
    handleDeferredEnterEvent e s k up = none := by
  simp [handleDeferredEnterEvent, h]

theorem handleDeferredNonshift_id (e : Engine) (k : ScKey) (up sh ij : Bool)
    (h : e.pending_nonshift_for_shift = []) :
    handleDeferredNonshiftBeforeEvent e k up sh ij = e := by
  simp [handleDeferredNonshiftBeforeEvent, h]

theorem startDeferredEnterRollover_nonenter (e : Engine) (s k : ScKey)
    (pt : PassThroughCurrent) (up : Bool) (h : k.sc ≠ 0x1C) :
    startDeferredEnterRollover e s k pt up = none := by
  have h2 : isEnterKey k = false := by
    simp [isEnterKey, h]
  simp [startDeferredEnterRollover, h2]

theorem sectionPrecheck_untracked (e : Engine) (L : Layout) (k : ScKey)
    (up ij sh : Bool)
    (h_pressed : e.chord_engine.state.pressed.contains k = false)
    (h_downts : e.chord_engine.state.down_ts.any (fun p => p.1 == k) = false)
    (h_pending : e.chord_engine.state.pending.any (fun p => p.key == k) = false)
    (h_enter : k.sc ≠ 0x1C) :
    sectionPrecheck e L k k PassThroughCurrent.Original up ij sh = none ∨
    sectionPrecheck e L k k PassThroughCurrent.Original up ij sh
      = some (e, KeyAction.Pass) := by
  rw [sectionPrecheck]
  simp only [h_pressed, h_downts, h_pending,
    startDeferredEnterRollover_nonenter e k k PassThroughCurrent.Original up h_enter]
  split
  · split
    · right; rfl
    · left; rfl
  · split
    · right; rfl
    · left; rfl

theorem repeatPlans_filter_id (plans : List (ScKey × List ScKey)) (k : ScKey)
    (h : repeatPlansGet plans k = none) :
    plans.filter (fun p => !(p.1 == k)) = plans := by
  unfold repeatPlansGet at h
  cases hf : List.find? (fun p => p.1 == k) plans with
  | some q => rw [hf] at h; simp at h
  | none =>
    rw [List.filter_eq_self]
    intro p hp
    have h2 := List.find?_eq_none.mp hf p hp
    simpa using h2

theorem onEvent_nontarget (ce : ChordEngine) (k : ScKey) (edge : KeyEdge)
    (t : Nat) (T : List ScKey)
    (h_passed : ce.state.passed_keys.contains k = false)
    (h_targets : ce.profile.target_keys = some T)
    (h_not_target : T.contains k = false)
    (h_space : k.sc ≠ 0x39) :
    onEvent ce ⟨k, edge, false, t⟩ = (ce, [Decision.Passthrough k edge]) := by
  have h_mem : k ∉ T := by simpa using h_not_target
  have h_pmem : k ∉ ce.state.passed_keys := by simpa using h_passed
  cases edge <;> simp [onEvent, h_pmem, h_targets, h_mem, h_space]

theorem releaseDeferred_none (e2 : Engine) (k : ScKey)
    (h : e2.deferred_enter_rollover = none) :
    releaseDeferredEnterOnWaitKeyUp e2 k = (e2, []) := by
  simp [releaseDeferredEnterOnWaitKeyUp, h]

end Kikyo

namespace Kikyo

/-! The claims. -/

/-- C1: for the pair A-down at 0, B-down at 50, A-up at 100, B-up at
150 the overlap ratio computed by the pair check is 50/100 = 1/2; with
threshold 0.35 the B-up event emits Chord([A, B]) and nothing else, and
with threshold 0.6 it emits KeyTap(A) then KeyTap(B) with no chord. -/
theorem chord_pair_ratio_half_two_thresholds :
    pairOverlapRatio (profWithRatio (mkRat 35 100))
        ⟨keyA, 0, some 100⟩ ⟨keyB, 50, some 150⟩ 150 (some (keyB, KeyEdge.Up))
      = some (mkRat 1 2) ∧
    (runEvents (ChordEngine.new (profWithRatio (mkRat 35 100))) eventsC1).2
      = [[], [], [], [Decision.Chord [keyA, keyB]]] ∧
    (runEvents (ChordEngine.new (profWithRatio (mkRat 60 100))) eventsC1).2
      = [[], [], [], [Decision.KeyTap keyA, Decision.KeyTap keyB]] := by
  refine ⟨by decide, ?_, ?_⟩ <;>
    simp +decide [runEvents, onEvent, checkChords, flushPendingWithCutoff, chordOuter,
      chordInner, chordRebuild, pairOverlapRatio, modifierKind, modifierIsContinuous,
      isModifierKey, insertSet, removeSet, mapInsert, mapRemove, setTUpFirst,
      stableSortBy, insertStable, tDownLe, singlePressFor, ChordEngine.new,
      ChordState.default, Profile.default, profWithRatio, eventsC1, evAt, keyA, keyB]

set_option maxHeartbeats 3200000 in
/-- C2: chord formation is ratio based, not window based: A-down at 0,
B-down at 500, B-up at 600 with A still held gives ratio 1 and the B-up
event emits Chord([A, B]) for every value of chord_window_ms. -/
theorem chord_ratio_ignores_chord_window (w : Nat) :
    profWithWindow w = { Profile.default with chord_window_ms := w } ∧
    pairOverlapRatio (profWithWindow w)
        ⟨keyA, 0, none⟩ ⟨keyB, 500, some 600⟩ 600 (some (keyB, KeyEdge.Up))
      = some 1 ∧
    (runEvents (ChordEngine.new (profWithWindow w))
        [evAt keyA KeyEdge.Down 0, evAt keyB KeyEdge.Down 500,
         evAt keyB KeyEdge.Up 600]).2
      = [[], [], [Decision.Chord [keyA, keyB]]] := by
  refine ⟨by simp [profWithWindow, Profile.default], ?_, ?_⟩ <;>
    simp +decide [runEvents, onEvent, checkChords, flushPendingWithCutoff, chordOuter,
      chordInner, chordRebuild, pairOverlapRatio, modifierKind, modifierIsContinuous,
      isModifierKey, insertSet, removeSet, mapInsert, mapRemove, setTUpFirst,
      stableSortBy, insertStable, tDownLe, singlePressFor, ChordEngine.new,
      ChordState.default, profWithWindow, evAt, keyA, keyB]

/-- Instance of the window-independence statement at window 123 ms. -/
theorem chord_ratio_ignores_chord_window_witness :
    profWithWindow 123 = { Profile.default with chord_window_ms := 123 } ∧
    pairOverlapRatio (profWithWindow 123)
        ⟨keyA, 0, none⟩ ⟨keyB, 500, some 600⟩ 600 (some (keyB, KeyEdge.Up))
      = some 1 ∧
    (runEvents (ChordEngine.new (profWithWindow 123))
        [evAt keyA KeyEdge.Down 0, evAt keyB KeyEdge.Down 500,
         evAt keyB KeyEdge.Up 600]).2
      = [[], [], [Decision.Chord [keyA, keyB]]] :=
  chord_ratio_ignores_chord_window 123

/-- C3: a Space down while Space is not a modifier first flushes the
pending keys with cutoff now, appends Passthrough(Space, Down) after the
flush decisions, records Space in passed_keys while leaving pending and
pressed as the flush left them, and the later Space up yields exactly
Passthrough(Space, Up). -/
theorem space_down_flushes_then_passes (e : ChordEngine) (k : ScKey)
    (now later : Nat) (hsc : k.sc = 0x39)
    (hmod : isModifierKey e.profile k = false) :
    (onEvent e ⟨k, KeyEdge.Down, false, now⟩).2
      = (flushPendingWithCutoff e now).2 ++ [Decision.Passthrough k KeyEdge.Down] ∧
    (onEvent e ⟨k, KeyEdge.Down, false, now⟩).1.state.passed_keys
      = insertSet (flushPendingWithCutoff e now).1.state.passed_keys k ∧
    (onEvent e ⟨k, KeyEdge.Down, false, now⟩).1.state.pending
      = (flushPendingWithCutoff e now).1.state.pending ∧
    (onEvent e ⟨k, KeyEdge.Down, false, now⟩).1.state.pressed
      = (flushPendingWithCutoff e now).1.state.pressed ∧
    (onEvent (onEvent e ⟨k, KeyEdge.Down, false, now⟩).1
        ⟨k, KeyEdge.Up, false, later⟩).2 = [Decision.Passthrough k KeyEdge.Up] := by
  have h1 : onEvent e ⟨k, KeyEdge.Down, false, now⟩
      = ({ (flushPendingWithCutoff e now).1 with state := { (flushPendingWithCutoff e now).1.state with passed_keys := insertSet (flushPendingWithCutoff e now).1.state.passed_keys k } }, (flushPendingWithCutoff e now).2 ++ [Decision.Passthrough k KeyEdge.Down]) := by
    simp [onEvent, hsc, hmod]
  rw [h1]
  refine ⟨rfl, rfl, rfl, rfl, ?_⟩
  simp [onEvent, mem_insertSet]

/-- Witness for the Space-down flush at a concrete engine with a
pending A press. -/
theorem space_down_flushes_then_passes_witness :
    (onEvent engC3 ⟨ScKey.new 0x39 false, KeyEdge.Down, false, 5⟩).2
      = (flushPendingWithCutoff engC3 5).2
          ++ [Decision.Passthrough (ScKey.new 0x39 false) KeyEdge.Down] ∧
    (onEvent engC3 ⟨ScKey.new 0x39 false, KeyEdge.Down, false, 5⟩).1.state.passed_keys
      = insertSet (flushPendingWithCutoff engC3 5).1.state.passed_keys
          (ScKey.new 0x39 false) ∧
    (onEvent engC3 ⟨ScKey.new 0x39 false, KeyEdge.Down, false, 5⟩).1.state.pending
      = (flushPendingWithCutoff engC3 5).1.state.pending ∧
    (onEvent engC3 ⟨ScKey.new 0x39 false, KeyEdge.Down, false, 5⟩).1.state.pressed
      = (flushPendingWithCutoff engC3 5).1.state.pressed ∧
    (onEvent (onEvent engC3 ⟨ScKey.new 0x39 false, KeyEdge.Down, false, 5⟩).1
        ⟨ScKey.new 0x39 false, KeyEdge.Up, false, 10⟩).2
      = [Decision.Passthrough (ScKey.new 0x39 false) KeyEdge.Up] :=
  space_down_flushes_then_passes engC3 (ScKey.new 0x39 false) 5 10 rfl (by decide)

/-- C4: every Chord decision emitted by the pair check lists its two
keys at pending positions i, j with t_down(i) < t_down(j), or equal
t_down and i inserted before j. -/
theorem checkChords_chord_tdown_ordered (e : ChordEngine) (now : Nat)
    (trigger : Option (ScKey × KeyEdge)) (ks : List ScKey)
    (hmem : Decision.Chord ks ∈ (checkChords e now trigger).2) :
    ∃ i j, i < e.state.pending.length ∧ j < e.state.pending.length ∧
      ks = [(pendAt e.state.pending i).key, (pendAt e.state.pending j).key] ∧
      ((pendAt e.state.pending i).t_down < (pendAt e.state.pending j).t_down ∨
        ((pendAt e.state.pending i).t_down = (pendAt e.state.pending j).t_down ∧
          i < j)) := by
  have hlen : ∀ x ∈ stableSortBy (tDownLe e.state.pending)
      (List.range e.state.pending.length), x < e.state.pending.length := by
    intro x hx
    exact List.mem_range.mp ((mem_stableSortBy _ x _).mp hx)
  have hpw := pairwise_stableSortBy e.state.pending e.state.pending.length
  simp only [checkChords] at hmem
  split at hmem
  · exact absurd hmem (List.not_mem_nil _)
  · split at hmem <;>
    · have hP := chordOuter_spec e.profile e.state.pressed e.state.pending now trigger
          (stableSortBy (tDownLe e.state.pending) (List.range e.state.pending.length))
          (stableSortBy (tDownLe e.state.pending) (List.range e.state.pending.length))
          ⟨[], [], [], e.state.used_modifiers⟩
          (fun d hd => absurd hd (List.not_mem_nil d)) (List.Sublist.refl _)
          (Decision.Chord ks) hmem
      rcases hP ks rfl with ⟨i, j, hsub, hks⟩
      have hi : i < e.state.pending.length :=
        hlen i (hsub.subset (by simp))
      have hj : j < e.state.pending.length :=
        hlen j (hsub.subset (by simp))
      have hR : RlexP e.state.pending i j :=
        List.pairwise_pair.mp (List.Pairwise.sublist hsub hpw)
      exact ⟨i, j, hi, hj, hks, hR⟩

/-- Witness for the chord ordering invariant on the concrete C1-style
pending list, where the B-up check emits Chord([A, B]). -/
theorem checkChords_chord_tdown_ordered_witness :
    ∃ i j, i < engC4.state.pending.length ∧ j < engC4.state.pending.length ∧
      [ScKey.new 0x1E false, ScKey.new 0x30 false]
        = [(pendAt engC4.state.pending i).key, (pendAt engC4.state.pending j).key] ∧
      ((pendAt engC4.state.pending i).t_down < (pendAt engC4.state.pending j).t_down ∨
        ((pendAt engC4.state.pending i).t_down = (pendAt engC4.state.pending j).t_down ∧
          i < j)) :=
  checkChords_chord_tdown_ordered engC4 150 (some (⟨0x30, false⟩, KeyEdge.Up))
    [ScKey.new 0x1E false, ScKey.new 0x30 false] (by decide)

/-- C5: an injected event produces no decisions and leaves the chord
state machine state (the whole engine record) unchanged. -/
theorem injected_event_is_ignored (e : ChordEngine) (ev : KeyEvent)
    (h : ev.injected = true) : onEvent e ev = (e, []) := by
  simp [onEvent, h]

/-- Witness for the injected-event guard at a concrete engine and event. -/
theorem injected_event_is_ignored_witness :
    onEvent (ChordEngine.new Profile.default) ⟨keyA, KeyEdge.Down, true, 7⟩
      = (ChordEngine.new Profile.default, []) :=
  injected_event_is_ignored (ChordEngine.new Profile.default)
    ⟨keyA, KeyEdge.Down, true, 7⟩ rfl

/-- C6 counterexample: with A (a target key) held and pending, the
untracked Enter key (scancode 0x1C, outside the target whitelist) is
Blocked on its down event and the engine state changes: a deferred
Enter rollover record is created. The claimed Pass/Pass with no state
change fails for Enter. -/
theorem enter_counterexample :
    (processKey envC6 0 engineC6 0x1E false false false).2 = KeyAction.Block ∧
    engineC6Held.chord_engine.state.pressed = [keyA] ∧
    engineC6Held.chord_engine.state.pressed.contains (ScKey.new 0x1C false) = false ∧
    engineC6Held.chord_engine.state.pending.any
      (fun p => p.key == ScKey.new 0x1C false) = false ∧
    (profC6.target_keys.getD []).contains (ScKey.new 0x1C false) = false ∧
    (processKey envC6 100 engineC6Held 0x1C false false false).2 = KeyAction.Block ∧
    (processKey envC6 100 engineC6Held 0x1C false false false).1.deferred_enter_rollover
      = some ⟨ScKey.new 0x1C false, PassThroughCurrent.Original, keyA, false, false⟩ := by
  refine ⟨by decide, by decide, by decide, by decide, by decide, by decide, by decide⟩

/-- C6 amended: a key outside the target set that is not Space or Enter,
is not in any function-key swap chain, is wholly untracked (not pressed,
no down timestamp, not pending, not in passed_keys, no repeat plan) and
meets no deferred state returns Pass on every down and up event and
leaves the engine exactly unchanged. -/
theorem processKey_untracked_pass (env : ExtEnv) (e : Engine) (L : Layout)
    (sc0 : Nat) (ext0 : Bool) (T : List ScKey)
    (h_enabled : e.enabled = true)
    (h_layout : e.layout = some L)
    (h_swaps : List.lookup (ScKey.new sc0 ext0) e.function_key_swaps = none)
    (h_deferred : e.deferred_enter_rollover = none)
    (h_nonshift : e.pending_nonshift_for_shift = [])
    (h_pressed : e.chord_engine.state.pressed.contains (ScKey.new sc0 ext0) = false)
    (h_downts : e.chord_engine.state.down_ts.any
      (fun p => p.1 == ScKey.new sc0 ext0) = false)
    (h_pending : e.chord_engine.state.pending.any
      (fun p => p.key == ScKey.new sc0 ext0) = false)
    (h_passed : e.chord_engine.state.passed_keys.contains (ScKey.new sc0 ext0) = false)
    (h_plans : repeatPlansGet e.repeat_plans (ScKey.new sc0 ext0) = none)
    (h_targets : e.chord_engine.profile.target_keys = some T)
    (h_not_target : T.contains (ScKey.new sc0 ext0) = false)
    (h_space : sc0 ≠ 0x39)
    (h_enter : sc0 ≠ 0x1C) :
    ∀ (now : Nat) (up shift : Bool),
      processKey env now e sc0 ext0 up shift = (e, KeyAction.Pass) := by
  intro now up shift
  obtain ⟨ce, en, lay, cb, rp, pns, fks, der⟩ := e
  simp only at h_enabled h_layout h_deferred h_nonshift
  subst h_enabled h_layout h_deferred h_nonshift
  have hremap := remapInputKey_id
    ⟨ce, true, some L, cb, rp, [], fks, none⟩ (ScKey.new sc0 ext0) h_swaps
  have hde := handleDeferredEnterEvent_none
    ⟨ce, true, some L, cb, rp, [], fks, none⟩ (ScKey.new sc0 ext0)
    (ScKey.new sc0 ext0) up rfl
  have hdn := handleDeferredNonshift_id
    ⟨ce, true, some L, cb, rp, [], fks, none⟩ (ScKey.new sc0 ext0) up shift
    (isJapaneseInputActive env ce.profile.ime_mode) rfl
  have h_enter2 : (ScKey.new sc0 ext0).sc ≠ 0x1C := h_enter
  have h_space2 : (ScKey.new sc0 ext0).sc ≠ 0x39 := h_space
  have hoe := onEvent_nontarget ce (ScKey.new sc0 ext0)
    (if up then KeyEdge.Up else KeyEdge.Down) now T h_passed h_targets
    h_not_target h_space2
  rcases sectionPrecheck_untracked ⟨ce, true, some L, cb, rp, [], fks, none⟩ L
      (ScKey.new sc0 ext0) up (isJapaneseInputActive env ce.profile.ime_mode)
      shift h_pressed h_downts h_pending h_enter2 with hpc | hpc
  · rw [processKey]
    simp only [Bool.not_true, Bool.false_eq_true, if_false,
      hremap, hde, hdn, hpc, hoe, isRepeatEvent, h_pressed, Bool.and_false,
      List.foldl_cons, List.foldl_nil, processDecision]
    cases up <;>
      simp [releaseDeferred_none, repeatPlans_filter_id, h_plans,
        processDecision, passthroughAction]
  · rw [processKey]
    simp only [Bool.not_true, Bool.false_eq_true, if_false,
      hremap, hde, hdn, hpc, hoe, isRepeatEvent, h_pressed, Bool.and_false,
      List.foldl_cons, List.foldl_nil, processDecision]

/-- Witness for the amended round trip: the untracked Z key passes
through the concrete engine unchanged on down and on up. -/
theorem processKey_untracked_pass_witness :
    processKey envC6 5 engineC6 0x2C false false false = (engineC6, KeyAction.Pass) ∧
    processKey envC6 9 engineC6 0x2C false true false = (engineC6, KeyAction.Pass) := by
  have h := processKey_untracked_pass envC6 engineC6 layoutC6 0x2C false [keyA]
    rfl rfl rfl rfl rfl rfl rfl rfl rfl rfl rfl (by decide) (by decide) (by decide)
  exact ⟨h 5 false false, h 9 true false⟩

/-- C7: a lonely tap on a thumb-modifier key swallows the key when it
was used as a modifier (clearing the used flag), and otherwise applies
the configured single-press behavior: None swallows, Enable emits
KeyTap(key), PrefixShift stores the key as the pending prefix, SpaceKey
emits KeyTap(Space). -/
theorem lonely_thumb_tap (e : ChordEngine) (k : ScKey) (td now : Nat)
    (hpend : e.state.pending = [⟨k, td, none⟩])
    (hthumb : (modifierKind e.profile k).is_thumb_kind = true)
    (hpass : e.state.passed_keys.contains k = false)
    (htgt : isTargetKeyB e.profile k = true) :
    (onEvent e ⟨k, KeyEdge.Up, false, now⟩).2
      = (if e.state.used_modifiers.contains k then []
         else
           match singlePressFor e.profile (modifierKind e.profile k) with
           | ThumbShiftSinglePress.None => []
           | ThumbShiftSinglePress.Enable => [Decision.KeyTap k]
           | ThumbShiftSinglePress.PrefixShift => []
           | ThumbShiftSinglePress.SpaceKey => [Decision.KeyTap (ScKey.new 0x39 false)]) ∧
    (onEvent e ⟨k, KeyEdge.Up, false, now⟩).1.state.pending = [] ∧
    (onEvent e ⟨k, KeyEdge.Up, false, now⟩).1.state.used_modifiers
      = (if e.state.used_modifiers.contains k then removeSet e.state.used_modifiers k
         else e.state.used_modifiers) ∧
    (onEvent e ⟨k, KeyEdge.Up, false, now⟩).1.state.prefix_pending
      = (if e.state.used_modifiers.contains k = false ∧
            singlePressFor e.profile (modifierKind e.profile k)
              = ThumbShiftSinglePress.PrefixShift
         then some k else e.state.prefix_pending) := by
  unfold isTargetKeyB at htgt
  simp at hpass htgt
  cases hmk : modifierKind e.profile k with
  | None => simp [ModifierKind.is_thumb_kind, hmk] at hthumb
  | CharShift => simp [ModifierKind.is_thumb_kind, hmk] at hthumb
  | ThumbLeft =>
    rcases htk : e.profile.target_keys with _ | targets <;>
    by_cases hused : e.state.used_modifiers.contains k = true <;>
    cases hsp : e.profile.thumb_left.single_press <;>
    simp_all [onEvent, checkChords, setTUpFirst, singlePressFor]
  | ThumbRight =>
    rcases htk : e.profile.target_keys with _ | targets <;>
    by_cases hused : e.state.used_modifiers.contains k = true <;>
    cases hsp : e.profile.thumb_right.single_press <;>
    simp_all [onEvent, checkChords, setTUpFirst, singlePressFor]
  | ThumbExt1 =>
    rcases htk : e.profile.target_keys with _ | targets <;>
    by_cases hused : e.state.used_modifiers.contains k = true <;>
    cases hsp : e.profile.extended_thumb1.single_press <;>
    simp_all [onEvent, checkChords, setTUpFirst, singlePressFor]
  | ThumbExt2 =>
    rcases htk : e.profile.target_keys with _ | targets <;>
    by_cases hused : e.state.used_modifiers.contains k = true <;>
    cases hsp : e.profile.extended_thumb2.single_press <;>
    simp_all [onEvent, checkChords, setTUpFirst, singlePressFor]

/-- Witness for the lonely thumb tap at a concrete engine where
Muhenkan is the left thumb key with single-press Enable. -/
theorem lonely_thumb_tap_witness :
    (onEvent engC7 ⟨keyMu, KeyEdge.Up, false, 40⟩).2
      = (if engC7.state.used_modifiers.contains keyMu then []
         else
           match singlePressFor engC7.profile (modifierKind engC7.profile keyMu) with
           | ThumbShiftSinglePress.None => []
           | ThumbShiftSinglePress.Enable => [Decision.KeyTap keyMu]
           | ThumbShiftSinglePress.PrefixShift => []
           | ThumbShiftSinglePress.SpaceKey => [Decision.KeyTap (ScKey.new 0x39 false)]) ∧
    (onEvent engC7 ⟨keyMu, KeyEdge.Up, false, 40⟩).1.state.pending = [] ∧
    (onEvent engC7 ⟨keyMu, KeyEdge.Up, false, 40⟩).1.state.used_modifiers
      = (if engC7.state.used_modifiers.contains keyMu
         then removeSet engC7.state.used_modifiers keyMu
         else engC7.state.used_modifiers) ∧
    (onEvent engC7 ⟨keyMu, KeyEdge.Up, false, 40⟩).1.state.prefix_pending
      = (if engC7.state.used_modifiers.contains keyMu = false ∧
            singlePressFor engC7.profile (modifierKind engC7.profile keyMu)
              = ThumbShiftSinglePress.PrefixShift
         then some keyMu else engC7.state.prefix_pending) :=
  lonely_thumb_tap engC7 keyMu 0 40 rfl (by decide) rfl rfl

/-- C8 counterexample: a two-stroke all-plain-char token (kana expanded
to two romaji presses) is a character assignment for the code but not
for the spec's length-1 wording, so with assigned repeats off and
unassigned repeats on the code forbids the repeat while the spec's
wording allows it. -/
theorem repeat_policy_len1_counterexample :
    isCharacterAssignment tokenTwoPlainChars = true ∧
    isCharacterAssignmentSpecLen1 tokenTwoPlainChars = false ∧
    repeatAllowedForToken profC8 (some tokenTwoPlainChars) = false ∧
    repeatAllowedSpecLen1 profC8 (some tokenTwoPlainChars) = true := by
  refine ⟨by decide, by decide, by decide, by decide⟩

/-- C8 amended: the repeat policy gates on the code's character
assignment — ImeChar, DirectChar, or a NON-EMPTY KeyStroke list whose
strokes are all plain chars with no modifiers — choosing
char_key_repeat_assigned for those tokens and char_key_repeat_unassigned
for every other token and for absent tokens; when the plan's resolved
token forbids repeats the repeat event is Blocked with no state change. -/
theorem repeat_policy_amended (env : ExtEnv) (now : Nat) (e : Engine)
    (key : ScKey) (shift ij : Bool) (pr : Profile) (t : Token) :
    repeatAllowedForToken pr (some t) =
      (if isCharacterAssignmentAmended t then pr.char_key_repeat_assigned
       else pr.char_key_repeat_unassigned) ∧
    repeatAllowedForToken pr none = pr.char_key_repeat_unassigned ∧
    (repeatAllowedForToken e.chord_engine.profile
        (resolve e
          (match repeatPlansGet e.repeat_plans key with
           | some ks => ks
           | none => (computeRepeatPlan e key now).1) shift ij) = false →
      handleRepeatEvent env now e key shift ij = (e, KeyAction.Block)) := by
  refine ⟨?_, rfl, ?_⟩
  · cases t with
    | KeySequence seq =>
      cases seq <;>
        simp [repeatAllowedForToken, isCharacterAssignment, isCharacterAssignmentAmended]
    | ImeChar s => rfl
    | DirectChar s => rfl
    | None => rfl
  · intro h
    cases hplan : repeatPlansGet e.repeat_plans key with
    | some ks =>
      rw [hplan] at h
      simp only [handleRepeatEvent, hplan, h]
      rfl
    | none =>
      rw [hplan] at h
      simp only [handleRepeatEvent, hplan, h]
      rfl

/-- Instance of the amended repeat policy at a concrete profile, engine
and two-stroke token. -/
theorem repeat_policy_amended_witness :
    repeatAllowedForToken profC8 (some tokenTwoPlainChars) =
      (if isCharacterAssignmentAmended tokenTwoPlainChars then profC8.char_key_repeat_assigned
       else profC8.char_key_repeat_unassigned) ∧
    repeatAllowedForToken profC8 none = profC8.char_key_repeat_unassigned ∧
    (repeatAllowedForToken engineC6.chord_engine.profile
        (resolve engineC6
          (match repeatPlansGet engineC6.repeat_plans keyA with
           | some ks => ks
           | none => (computeRepeatPlan engineC6 keyA 0).1) false false) = false →
      handleRepeatEvent envC6 0 engineC6 keyA false false
        = (engineC6, KeyAction.Block)) :=
  repeat_policy_amended envC6 0 engineC6 keyA false false profC8 tokenTwoPlainChars

/-- C9: disabling an enabled engine resets the chord state machine to
its default (clearing pending, pressed, down timestamps, passed_keys,
used_modifiers, latch and prefix state), clears repeat plans, the
nonshift queue and the deferred-Enter record, preserves the profile,
layout and swap map, and invokes the registered enabled-change callback
with false. -/
theorem disable_clears_transient_state (e : Engine)
    (h : e.enabled = true) (hcb : e.on_enabled_change = true) :
    (setEnabled e false).1.chord_engine.state = ChordState.default ∧
    (setEnabled e false).1.chord_engine.profile = e.chord_engine.profile ∧
    (setEnabled e false).1.layout = e.layout ∧
    (setEnabled e false).1.repeat_plans = [] ∧
    (setEnabled e false).1.pending_nonshift_for_shift = [] ∧
    (setEnabled e false).1.deferred_enter_rollover = none ∧
    (setEnabled e false).1.enabled = false ∧
    (setEnabled e false).1.function_key_swaps = e.function_key_swaps ∧
    (setEnabled e false).2 = [false] := by
  simp [setEnabled, h, hcb, ChordEngine.new]

/-- Witness for the disable reset at a concrete enabled engine with a
registered callback. -/
theorem disable_clears_transient_state_witness :
    (setEnabled engC9 false).1.chord_engine.state = ChordState.default ∧
    (setEnabled engC9 false).1.chord_engine.profile = engC9.chord_engine.profile ∧
    (setEnabled engC9 false).1.layout = engC9.layout ∧
    (setEnabled engC9 false).1.repeat_plans = [] ∧
    (setEnabled engC9 false).1.pending_nonshift_for_shift = [] ∧
    (setEnabled engC9 false).1.deferred_enter_rollover = none ∧
    (setEnabled engC9 false).1.enabled = false ∧
    (setEnabled engC9 false).1.function_key_swaps = engC9.function_key_swaps ∧
    (setEnabled engC9 false).2 = [false] :=
  disable_clears_transient_state engC9 rfl rfl

/-- C10: the remap swap-chain loop of remap_input_key always terminates
within its visited-set bound, and remap_input_key returns the value
computed from the loop result: a remapped key with a passthrough mode,
or a CapsLock/KanaLock pseudo-key. This holds for every swap map,
including cyclic ones. -/
theorem remap_input_key_total (e : Engine) (source_key : ScKey) :
    ∃ r, remapLoop e.function_key_swaps (e.function_key_swaps.length + 1)
        [] source_key false = some r ∧
      remapInputKey e source_key =
        (match r with
         | Sum.inl (current, changed) =>
           (current,
             if !changed then PassThroughCurrent.Original
             else if isVirtualExtendedKey current then PassThroughCurrent.Block
             else PassThroughCurrent.Inject current,
             none)
         | Sum.inr (current, pseudo) =>
           (current, PassThroughCurrent.Block, some pseudo)) := by
  have h := remapLoop_total_aux e.function_key_swaps
    (e.function_key_swaps.length + 1) [] source_key false List.nodup_nil
    (by intro v hv; simp at hv) (by simp)
  rcases Option.isSome_iff_exists.mp h with ⟨r, hr⟩
  refine ⟨r, hr, ?_⟩
  rw [remapInputKey, hr]
  rcases r with ⟨c, ch⟩ | ⟨c, ps⟩ <;> rfl

/-- Instance of the remap totality statement at a concrete engine and
source key. -/
theorem remap_input_key_total_witness :
    ∃ r, remapLoop engineC6.function_key_swaps
        (engineC6.function_key_swaps.length + 1) [] keyA false = some r ∧
      remapInputKey engineC6 keyA =
        (match r with
         | Sum.inl (current, changed) =>
           (current,
             if !changed then PassThroughCurrent.Original
             else if isVirtualExtendedKey current then PassThroughCurrent.Block
             else PassThroughCurrent.Inject current,
             none)
         | Sum.inr (current, pseudo) =>
           (current, PassThroughCurrent.Block, some pseudo)) :=
  remap_input_key_total engineC6 keyA

end Kikyo
